import Mathlib

/-!
Persistent named-artifact store: `DMPLibrary` and `TaskRecorderIO`

A shallow embedding of

* `src/dmp/skill_library/include/skill_library/dmp_library.h` (namespace `skill_library`)
* `src/learning/task_recorder2_io/include/task_recorder2_io/task_recorder_io.h`
  (namespace `task_recorder2_io`)

together with the properties proved about them.

Conventions of the embedding

* `std::string` is Lean's `String`; one `Char` stands for one `char` of the C++ string
  (exact for ASCII names, which is what file names of the library are).
* `size_t` arithmetic is arithmetic on `Nat` modulo `2 ^ 64`.
* `int` identifiers and the `int index` of `add` are `Int`; signed overflow is undefined
  behaviour in C++, so the embedding describes libraries with fewer than `2 ^ 31 - 1` entries.
* a member function becomes a function from the object (and the disk, when it touches it)
  to its result paired with the new object; a by-reference output parameter is returned.
* `ROS_ASSERT_MSG` / `ROS_VERIFY` are embedded with assertions enabled: a failed assertion
  ends the call with the corresponding `Failure`.
-/

/-- Exits by which an operation of the store reports failure.  The source returns `false`
or stops at an assertion; each constructor names one such exit.  The error kind the
specification gives to the exit is noted next to it. -/
inductive Failure where
  /-- `boost::filesystem::create_directories` threw in `DMPLibrary::initialize` (IOError). -/
  | createDirectoriesFailed
  /-- `readFromBagFile` returned false (IOError). -/
  | readFailed
  /-- `add` returned false. -/
  | addFailed
  /-- `writeToDisc` returned false (IOError). -/
  | writeFailed
  /-- No file of the backing directory matches the name (NotFound). -/
  | notFound
  /-- The name handed to `addDMP` is empty (InvalidArgument). -/
  | emptyName
  /-- `ROS_ASSERT_MSG(initialized_, ...)` failed (PreconditionFailed). -/
  | notInitialized
  /-- `ROS_ASSERT_MSG(!messages_.empty(), ...)` failed (PreconditionFailed). -/
  | messagesEmpty
  /-- `ROS_ASSERT_MSG(trajectory_duration > 0.0, ...)` failed (InvalidState). -/
  | durationNotPositive
  /-- `ROS_VERIFY` / `ROS_VERIFY_MSG` on a collaborator's result failed. -/
  | verifyFailed
  /-- `checkAndCreateDirectories` returned false. -/
  | dataDirectoryFailed
  /-- `checkForDirectory` returned false. -/
  | directoryCheckFailed
  /-- `getTrialId` returned false. -/
  | trialIdFailed
  /-- `checkForCompleteness` returned false: an earlier trial is incomplete (InvalidState). -/
  | incomplete
  /-- `incrementTrialCounterFile` returned false. -/
  | counterIncrementFailed
  /-- `setCLMCFileName` returned false. -/
  | clmcFileNameFailed
  /-- `dmp_lib::Trajectory::initialize`, `add` or `writeToCLMCFile` returned false. -/
  | trajectoryFailed
  /-- `getDirectoryList` returned false. -/
  | directoryListFailed
  /-- `getAbsFileName` returned false. -/
  | absFileNameFailed
  deriving DecidableEq, Repr

deriving instance DecidableEq for Except

namespace skill_library

/-! ## Strings -/

/-- The constant `SLASH` (dmp_library.h, line 41). -/
def SLASH : String := "/"

/-- The constant `BAG_FILE_ENDING` (dmp_library.h, line 42). -/
def BAG_FILE_ENDING : String := ".bag"

/-- Number of values of `size_t`. -/
def SIZE_T : Nat := 2 ^ 64

/-- The value `std::string::npos`, the largest `size_t`. -/
def npos : Nat := SIZE_T - 1

/-- Left-to-right scan behind `find_last_of`: `pos` is the position of the head of the
remaining characters, `last` the last position found so far. -/
def find_last_of_from (chars : List Char) : List Char → Nat → Nat → Nat
  | [], _, last => last
  | c :: cs, pos, last => find_last_of_from chars cs (pos + 1) (if c ∈ chars then pos else last)

/-- The call `s.find_last_of(chars)` of `std::string`: the position of the last character
of `s` that is one of the characters of `chars`, `npos` when there is none. -/
def find_last_of (s chars : String) : Nat :=
  find_last_of_from chars.data s.data 0 npos

/-- The call `s.substr(pos, count)` of `std::string` for `pos ≤ s.length()`: the characters
from `pos` on, at most `count` of them.  (`getName` never calls it with `pos` beyond the
length, where `std::string` throws.) -/
def substr (s : String) (pos count : Nat) : String :=
  ⟨(s.data.drop pos).take count⟩

/-- Lexicographic comparison of character sequences, `std::string::compare(...) < 0`. -/
def lexLt : List Char → List Char → Bool
  | [], [] => false
  | [], _ :: _ => true
  | _ :: _, [] => false
  | a :: as, b :: bs => if a < b then true else if b < a then false else lexLt as bs

/-- The ordering `std::less<std::string>` used by `std::map` and `std::sort`. -/
def less (a b : String) : Bool := lexLt a.data b.data

/-- The call `std::sort(filenames.begin(), filenames.end())`: the ascending arrangement of
the strings. -/
def std_sort (filenames : List String) : List String :=
  filenames.insertionSort (fun a b => less b a = false)

/-! ## Messages and the cache -/

/-- A message of type `MessageType`: the identifier `dmp.parameters.id` and everything else
it carries (`payload`). -/
structure Message (π : Type) where
  id : Int
  payload : π
  deriving DecidableEq, Repr

/-- The class `DMPLibrary` (dmp_library.h, lines 44-157).  `map_` lists the entries of the
`std::map` in iteration order, that is ascending by key. -/
structure DMPLibrary (π : Type) where
  initialized_ : Bool
  map_ : List (String × Message π)
  absolute_library_directory_path_ : String
  deriving DecidableEq, Repr

/-- The default constructor `DMPLibrary()` (line 52). -/
def DMPLibrary.new (π : Type) : DMPLibrary π :=
  { initialized_ := false, map_ := [], absolute_library_directory_path_ := "" }

/-- Keys of a map, in iteration order. -/
def keys {π : Type} (m : List (String × Message π)) : List String := m.map Prod.fst

/-- Class invariant of `std::map`: the keys are strictly ascending. -/
def WellFormed {π : Type} (m : List (String × Message π)) : Prop :=
  (keys m).Pairwise (fun a b => less a b = true)

/-- The call `map_.insert(std::pair(name, msg))`: the entry is placed at its position in
key order; a map that already has the key is left as it is. -/
def map_insert {π : Type} (name : String) (msg : Message π) :
    List (String × Message π) → List (String × Message π)
  | [] => [(name, msg)]
  | (k, v) :: rest =>
    if less name k then (name, msg) :: (k, v) :: rest
    else if less k name then (k, v) :: map_insert name msg rest
    else (k, v) :: rest

/-- The call `map_.find(name)`, giving the mapped message when the key is present. -/
def map_find {π : Type} (name : String) : List (String × Message π) → Option (Message π)
  | [] => none
  | (k, v) :: rest => if k = name then some v else map_find name rest

/-- `DMPLibrary::getBagFileName` (lines 103-106). -/
def getBagFileName {π : Type} (lib : DMPLibrary π) (name : String) : String :=
  lib.absolute_library_directory_path_ ++ SLASH ++ name ++ BAG_FILE_ENDING

/-- `DMPLibrary::getName` (lines 114-129). -/
def getName (filename : String) : String :=
  let f := filename
  let slash_separater_pos := find_last_of f SLASH
  if slash_separater_pos ≠ npos then
    let sp := (slash_separater_pos + SLASH.length) % SIZE_T
    let length := (f.length + SIZE_T - sp) % SIZE_T
    let filename := substr f sp length
    let sp := find_last_of filename BAG_FILE_ENDING
    substr filename 0 ((sp + SIZE_T - BAG_FILE_ENDING.length + 1) % SIZE_T)
  else
    "INVALID_FILENAME"

/-- The `for` loop of `DMPLibrary::add` (lines 226-236) from the entry at the head of the
list on: the map after the loop, the message (its id is overwritten on a match), `found`
and `index`. -/
def add_loop {π : Type} (name : String) :
    List (String × Message π) → Message π → Int →
      List (String × Message π) × Message π × Bool × Int
  | [], msg, index => ([], msg, false, index)
  | (k, v) :: rest, msg, index =>
    if k = name then
      let msg1 : Message π := { msg with id := v.id }
      ((k, msg1) :: rest, msg1, true, index + 1)
    else
      let r := add_loop name rest msg (index + 1)
      ((k, v) :: r.1, r.2.1, r.2.2.1, r.2.2.2)

/-- `DMPLibrary::add` (lines 220-251): the returned flag, the message as left in the
caller's variable, and the library afterwards. -/
def add {π : Type} (lib : DMPLibrary π) (msg : Message π) (name : String) :
    Bool × Message π × DMPLibrary π :=
  let r := add_loop name lib.map_ msg 1
  let found := r.2.2.1
  let index := r.2.2.2
  if !found then
    let msg2 : Message π := if r.2.1.id > 0 then r.2.1 else { r.2.1 with id := index }
    (true, msg2, { lib with map_ := map_insert name msg2 r.1 })
  else
    (true, r.2.1, { lib with map_ := r.1 })

/-- `DMPLibrary::get` (lines 253-264): `none` stands for `return false`, in which case the
caller's message is untouched. -/
def get {π : Type} (lib : DMPLibrary π) (name : String) : Option (Message π) :=
  map_find name lib.map_

/-! ## The backing directory -/

/-- Modelled from the spec: the backing directory of the library, which the Serializer
(`usc_utilities::FileIO`, `dmp::DynamicMovementPrimitiveIO`) and `boost::filesystem` reach
and which is not part of the two source files.  Each entry is the path of a file directly
under the library directory, as the directory iterator reports it, with the message a read
of it yields; `none` when the file cannot be read as a message of the library's type.  The
order of the list is the (unspecified) order of directory iteration. -/
abbrev Disk (π : Type) := List (String × Option (Message π))

/-- Modelled from the spec: the paths a `boost::filesystem::directory_iterator` over the
library directory yields. -/
def directory_iterator {π : Type} (disk : Disk π) : List String := disk.map Prod.fst

/-- Modelled from the spec: `usc_utilities::FileIO<MessageType>::readFromBagFile`, reading
one message from the file `filename`; `none` stands for `return false` (no such file, or a
file that is not readable as a message). -/
def readFromBagFile {π : Type} : Disk π → String → Option (Message π)
  | [], _ => none
  | (p, c) :: rest, filename => if p = filename then c else readFromBagFile rest filename

/-- Modelled from the spec: `dmp::DynamicMovementPrimitiveIO::writeToDisc`, which
"unconditionally overwrites the on-disk file at the deterministic path"; a file that did
not exist is created.  The flag is the function's result; the model has no failing write. -/
def writeToDisc {π : Type} (msg : Message π) (filename : String) : Disk π → Bool × Disk π
  | [] => (true, [(filename, some msg)])
  | (p, c) :: rest =>
    if p = filename then (true, (p, some msg) :: rest)
    else (true, (p, c) :: (writeToDisc msg filename rest).2)

/-- The second `for` loop of `DMPLibrary::reload` (lines 187-201) over the sorted file
names that remain. -/
def reload_loop {π : Type} (disk : Disk π) :
    List String → DMPLibrary π → Except Failure Unit × DMPLibrary π
  | [], lib => (.ok (), lib)
  | filename :: rest, lib =>
    match readFromBagFile disk filename with
    | none => (.error .readFailed, lib)
    | some dmp_message =>
      let name := getName filename
      let r := add lib dmp_message name
      if !r.1 then (.error .addFailed, r.2.2)
      else reload_loop disk rest r.2.2

/-- `DMPLibrary::reload` (lines 177-203). -/
def reload {π : Type} (lib : DMPLibrary π) (disk : Disk π) :
    Except Failure Unit × DMPLibrary π :=
  let filenames := directory_iterator disk
  let filenames := std_sort filenames
  reload_loop disk filenames lib

/-- `DMPLibrary::initialize` (lines 159-175), named `initializeLibrary` here because the
source name is reserved in Lean.  `versionString` is
`DMPType::getVersionString()`; `created` tells whether
`boost::filesystem::create_directories` returned without throwing. -/
def initializeLibrary {π : Type} (lib : DMPLibrary π) (versionString data_directory_name : String)
    (created : Bool) (disk : Disk π) : Except Failure Unit × DMPLibrary π :=
  let library_directory_name := data_directory_name ++ versionString
  let lib1 := { lib with absolute_library_directory_path_ := library_directory_name }
  if !created then (.error .createDirectoriesFailed, lib1)
  else
    let r := reload lib1 disk
    (r.1, { r.2 with initialized_ := r.1.toBool })

/-- The directory scan of `DMPLibrary::getDMP` (lines 318-334) over the paths that
remain. -/
def getDMP_scan {π : Type} (lib : DMPLibrary π) (disk : Disk π) (name filename : String) :
    List String → Except Failure (Message π) × DMPLibrary π
  | [] => (.error .notFound, lib)
  | p :: rest =>
    if filename = p then
      match readFromBagFile disk filename with
      | none => (.error .readFailed, lib)
      | some dmp_message =>
        let r := add lib dmp_message name
        (.ok r.2.1, r.2.2)
    else getDMP_scan lib disk name filename rest

/-- `DMPLibrary::getDMP` (lines 307-337): the message handed back on success, and the
library afterwards. -/
def getDMP {π : Type} (lib : DMPLibrary π) (disk : Disk π) (name : String) :
    Except Failure (Message π) × DMPLibrary π :=
  match get lib name with
  | some dmp_message => (.ok dmp_message, lib)
  | none =>
    let filename := getBagFileName lib name
    getDMP_scan lib disk name filename (directory_iterator disk)

/-- `DMPLibrary::addDMP(MessageType&, const std::string&)` (lines 266-282): the message as
left in the caller's variable on success, the library and the disk afterwards. -/
def addDMP {π : Type} (lib : DMPLibrary π) (disk : Disk π) (dmp_message : Message π)
    (name : String) : Except Failure (Message π) × DMPLibrary π × Disk π :=
  if name.isEmpty then (.error .emptyName, lib, disk)
  else
    let r := add lib dmp_message name
    if !r.1 then (.error .addFailed, r.2.2, disk)
    else
      let filename := getBagFileName r.2.2 name
      let w := writeToDisc r.2.1 filename disk
      (if w.1 then .ok r.2.1 else .error .writeFailed, r.2.2, w.2)

/-- A sequence of `add` calls on a library, the first call of the list first; each call
is the message and the name handed to `add`. -/
def add_all {π : Type} (lib : DMPLibrary π) : List (Message π × String) → DMPLibrary π
  | [] => lib
  | call :: rest => add_all (add lib call.1 call.2).2.2 rest

/-- The identifiers stored in a map, in iteration order. -/
def ids {π : Type} (m : List (String × Message π)) : List Int := m.map (fun e => e.2.id)

/-- The message `add` stores under a name that is not in the map yet. -/
def stored_new {π : Type} (lib : DMPLibrary π) (msg : Message π) : Message π :=
  ⟨if msg.id > 0 then msg.id else lib.map_.length + 1, msg.payload⟩

/-- Invariant behind the uniqueness of identifiers: the stored identifiers are pairwise
distinct and lie between 1 and the number of entries. -/
def DenseIds {π : Type} (lib : DMPLibrary π) : Prop :=
  (ids lib.map_).Nodup ∧ ∀ i ∈ ids lib.map_, 1 ≤ i ∧ i ≤ (lib.map_.length : Int)

/-- An empty library rooted at `/lib`, used to illustrate the theorems. -/
def exampleLibrary : DMPLibrary Nat :=
  { initialized_ := true, map_ := [], absolute_library_directory_path_ := "/lib" }

/-- A backing directory with three readable files, listed in an order that is not the
sorted one; none of the stored artifacts carries a positive identifier. -/
def exampleDisk : Disk Nat :=
  [("/lib/reach.bag", some ⟨0, 2⟩), ("/lib/grasp.bag", some ⟨0, 1⟩),
    ("/lib/place.bag", some ⟨-1, 3⟩)]

/-- The `add` calls `reload` makes for a list of file names, in order: one call per file
that can be read, with the message read and the name derived from the file name. -/
def reload_calls {π : Type} (disk : Disk π) (filenames : List String) :
    List (Message π × String) :=
  filenames.filterMap fun filename =>
    (readFromBagFile disk filename).map fun dmp_message => (dmp_message, getName filename)

/-- A backing directory whose second file in sorted order cannot be read. -/
def exampleBrokenDisk : Disk Nat :=
  [("/lib/reach.bag", some ⟨0, 2⟩), ("/lib/place.bag", none), ("/lib/grasp.bag", some ⟨0, 1⟩)]

end skill_library

namespace task_recorder2_io

/-! ## `TaskRecorderIO` -/

/-- The constant `RESAMPLED_DIRECTORY_NAME` (task_recorder_io.h, line 48). -/
def RESAMPLED_DIRECTORY_NAME : String := "resampled"

/-- The constant `RAW_DIRECTORY_NAME` (task_recorder_io.h, line 49). -/
def RAW_DIRECTORY_NAME : String := "raw"

/-- Modelled from the spec: `task_recorder2_msgs::Description`, whose declaration is not
part of the two source files: "an experiment label plus a mutable trial integer". -/
structure Description where
  label : String
  trial : Int
  deriving DecidableEq, Repr

/-- A recorded sample (`MessageType`, by default `task_recorder2_msgs::DataSample`), with the
members the source reads: `header.stamp` (in seconds, an exact rational), `names` and
`data`. -/
structure DataSample where
  stamp : ℚ
  names : List String
  data : List ℚ
  deriving DecidableEq, Repr

/-- The data members of `TaskRecorderIO` (lines 180-209).  `node_handle_` is the handle to
the configuration service, which lives in the world the collaborators act on.  Paths of
`boost::filesystem` are the strings they are built from. -/
structure TaskRecorderIO where
  topic_name_ : String
  prefixed_topic_name_ : String
  messages_ : List DataSample
  write_out_raw_data_ : Bool
  write_out_clmc_data_ : Bool
  write_out_resampled_data_ : Bool
  initialized_ : Bool
  description_ : Description
  data_directory_name_ : String
  absolute_data_directory_path_ : String
  deriving DecidableEq, Repr

/-- The constructor `TaskRecorderIO(node_handle)` (lines 64-72). -/
def TaskRecorderIO.new : TaskRecorderIO :=
  { topic_name_ := "", prefixed_topic_name_ := "", messages_ := [],
    write_out_raw_data_ := false, write_out_clmc_data_ := false,
    write_out_resampled_data_ := false, initialized_ := false,
    description_ := { label := "", trial := 0 }, data_directory_name_ := "",
    absolute_data_directory_path_ := "" }

/-- The functions `TaskRecorderIO` calls that are defined outside the two source files
(`usc_utilities`, `task_recorder2_utilities`, `boost::filesystem`, `dmp_lib::Trajectory`),
taken as parameters.  `W` is the state of the world they act on (file system and
configuration service), `T` the type of trajectory objects.  A function that may change the
world returns the new world; a `bool` result is the `Bool` (or `none` for `false` when the
function hands a value back); an argument passed by reference is returned. -/
structure Collaborators (W T : Type) where
  /-- `usc_utilities::removeLeadingSlash`. -/
  removeLeadingSlash : String → String
  /-- `usc_utilities::appendLeadingSlash`. -/
  appendLeadingSlash : String → String
  /-- `usc_utilities::appendTrailingSlash`. -/
  appendTrailingSlash : String → String
  /-- `usc_utilities::read(node_handle_, key, bool&)`. -/
  read_bool : String → W → Option Bool
  /-- `usc_utilities::read(node_handle_, key, std::string&)`. -/
  read_string : String → W → Option String
  /-- `usc_utilities::FileIO::writeToBagFileWithTimeStamps(messages, topic, file_name)`. -/
  writeToBagFileWithTimeStamps : List DataSample → String → String → W → Bool × W
  /-- `usc_utilities::FileIO::readFromBagFile(msgs, topic, file_name)`. -/
  readFromBagFile : String → String → W → Option (List DataSample)
  /-- `task_recorder2_utilities::getDirectoryPath(package, directory)`. -/
  getDirectoryPath : String → String → String
  /-- `task_recorder2_utilities::checkAndCreateDirectories(directory)`. -/
  checkAndCreateDirectories : String → W → Bool × W
  /-- `task_recorder2_utilities::getFileName(description)`. -/
  getFileName : Description → String
  /-- `task_recorder2_utilities::createSymlinks(path)`. -/
  createSymlinks : String → W → W
  /-- `task_recorder2_utilities::checkForDirectory(path)`. -/
  checkForDirectory : String → W → Bool × W
  /-- `task_recorder2_utilities::getTrialId(path, trial, topic)`; `trial` is passed by
  reference, its value after the call is the second component. -/
  getTrialId : String → Int → String → W → Bool × Int × W
  /-- `task_recorder2_utilities::checkForCompleteness(path, trial, topic)`. -/
  checkForCompleteness : String → Int → String → W → Bool
  /-- `task_recorder2_utilities::incrementTrialCounterFile(path, topic)`. -/
  incrementTrialCounterFile : String → String → W → Bool × W
  /-- `task_recorder2_utilities::getPathNameIncludingTrailingSlash(path)`. -/
  getPathNameIncludingTrailingSlash : String → String
  /-- `task_recorder2_utilities::getDataFileName(topic, trial)`. -/
  getDataFileName : String → Int → String
  /-- `task_recorder2_utilities::setCLMCFileName(file_name, trial)`. -/
  setCLMCFileName : Int → Option String
  /-- `task_recorder2_utilities::getDirectoryList(path, descriptions)`. -/
  getDirectoryList : String → W → Option (List String)
  /-- `boost::filesystem::exists(path)`. -/
  path_exists : String → W → Bool
  /-- `boost::filesystem::create_directory(path)`. -/
  create_directory : String → W → Bool × W
  /-- `dmp_lib::Trajectory::initialize(variable_names, sampling_frequency, true, length)` on
  a new trajectory. -/
  trajectory_initialize : List String → ℚ → Bool → Int → Option T
  /-- `dmp_lib::Trajectory::add(data, true)`. -/
  trajectory_add : T → List ℚ → Bool → Option T
  /-- `dmp_lib::Trajectory::writeToCLMCFile(file_name, true)`. -/
  trajectory_writeToCLMCFile : T → String → Bool → W → Bool × W
  /-- The conversion `static_cast<float>` of a `double`. -/
  to_float : ℚ → ℚ

section Operations

variable {W T : Type} (U : Collaborators W T)

/-- `TaskRecorderIO::initialize` (lines 213-239), named `initializeRecorder` here because
the source name is reserved in Lean.  `topic_prefix_` is the parameter `prefix`. -/
def initializeRecorder (s : TaskRecorderIO) (topic_name topic_prefix_ : String) (w : W) :
    Except Failure Unit × TaskRecorderIO × W :=
  let s := { s with
    topic_name_ := topic_name
    prefixed_topic_name_ :=
      U.appendLeadingSlash (topic_prefix_ ++ U.removeLeadingSlash topic_name) }
  match U.read_bool "write_out_resampled_data" w with
  | none => (.error .verifyFailed, s, w)
  | some resampled =>
    let s := { s with write_out_resampled_data_ := resampled }
    match U.read_bool "write_out_raw_data" w with
    | none => (.error .verifyFailed, s, w)
    | some raw =>
      let s := { s with write_out_raw_data_ := raw }
      match U.read_bool "write_out_clmc_data" w with
      | none => (.error .verifyFailed, s, w)
      | some clmc =>
        let s := { s with write_out_clmc_data_ := clmc }
        match U.read_string "recorder_package_name" w with
        | none => (.error .verifyFailed, s, w)
        | some recorder_package_name =>
          match U.read_string "recorder_data_directory_name" w with
          | none => (.error .verifyFailed, s, w)
          | some recorder_data_directory_name =>
            let s := { s with data_directory_name_ :=
              U.getDirectoryPath recorder_package_name recorder_data_directory_name }
            let c := U.checkAndCreateDirectories s.data_directory_name_ w
            if !c.1 then (.error .verifyFailed, s, c.2)
            else (.ok (), { s with initialized_ := true }, c.2)

/-- `TaskRecorderIO::setDescription` (lines 241-246). -/
def setDescription (s : TaskRecorderIO) (description : Description) :
    Except Failure Unit × TaskRecorderIO :=
  if !s.initialized_ then (.error .notInitialized, s)
  else (.ok (), { s with description_ := description })

/-- The path a write operation works in (lines 267-271, 293-295, 313-317): the session's
directory, or its subdirectory `directory_name` when that is not empty. -/
def subdirectory_path (s : TaskRecorderIO) (directory_name : String) : String :=
  if !directory_name.isEmpty then s.absolute_data_directory_path_ ++ "/" ++ directory_name
  else s.absolute_data_directory_path_

/-- `TaskRecorderIO::createDirectories` (lines 248-280). -/
def createDirectories (s : TaskRecorderIO) (directory_name : String) (w : W) :
    Except Failure Unit × TaskRecorderIO × W :=
  let c := U.checkAndCreateDirectories s.data_directory_name_ w
  if !c.1 then (.error .dataDirectoryFailed, s, c.2)
  else
    let s := { s with absolute_data_directory_path_ :=
      s.data_directory_name_ ++ U.getFileName s.description_ }
    let base : Except Failure Unit × W :=
      if !U.path_exists s.absolute_data_directory_path_ c.2 then
        let d := U.create_directory s.absolute_data_directory_path_ c.2
        if !d.1 then (.error .verifyFailed, d.2)
        else (.ok (), U.createSymlinks s.absolute_data_directory_path_ d.2)
      else (.ok (), c.2)
    match base with
    | (.error e, w1) => (.error e, s, w1)
    | (.ok _, w1) =>
      let path := subdirectory_path s directory_name
      let d := U.checkForDirectory path w1
      if !d.1 then (.error .directoryCheckFailed, s, d.2)
      else
        let t := U.getTrialId path s.description_.trial s.prefixed_topic_name_ d.2
        let s := { s with description_ := { s.description_ with trial := t.2.1 } }
        if !t.1 then (.error .trialIdFailed, s, t.2.2)
        else if !U.checkForCompleteness path s.description_.trial s.prefixed_topic_name_ t.2.2
        then (.error .incomplete, s, t.2.2)
        else (.ok (), s, t.2.2)

/-- Lines 251-275 of `TaskRecorderIO::createDirectories`: everything before the
completeness check, that is the data directory, the session's directory (created when it
does not exist), the subdirectory check and the resolution of the trial id, which is left
in `description_.trial`. -/
def createDirectories_trial_id (s : TaskRecorderIO) (directory_name : String) (w : W) :
    Except Failure Unit × TaskRecorderIO × W :=
  let c := U.checkAndCreateDirectories s.data_directory_name_ w
  if !c.1 then (.error .dataDirectoryFailed, s, c.2)
  else
    let s := { s with absolute_data_directory_path_ :=
      s.data_directory_name_ ++ U.getFileName s.description_ }
    let base : Except Failure Unit × W :=
      if !U.path_exists s.absolute_data_directory_path_ c.2 then
        let d := U.create_directory s.absolute_data_directory_path_ c.2
        if !d.1 then (.error .verifyFailed, d.2)
        else (.ok (), U.createSymlinks s.absolute_data_directory_path_ d.2)
      else (.ok (), c.2)
    match base with
    | (.error e, w1) => (.error e, s, w1)
    | (.ok _, w1) =>
      let path := subdirectory_path s directory_name
      let d := U.checkForDirectory path w1
      if !d.1 then (.error .directoryCheckFailed, s, d.2)
      else
        let t := U.getTrialId path s.description_.trial s.prefixed_topic_name_ d.2
        let s := { s with description_ := { s.description_ with trial := t.2.1 } }
        if !t.1 then (.error .trialIdFailed, s, t.2.2)
        else (.ok (), s, t.2.2)

/-- `TaskRecorderIO::getDescription` (lines 282-287). -/
def getDescription (s : TaskRecorderIO) : Except Failure Description :=
  if !s.initialized_ then .error .notInitialized
  else .ok s.description_

/-- `TaskRecorderIO::incrementCounterFile` (lines 289-304). -/
def incrementCounterFile (s : TaskRecorderIO) (directory_name : String) (w : W) :
    Except Failure Unit × TaskRecorderIO × W :=
  if !s.initialized_ then (.error .notInitialized, s, w)
  else
    let path := subdirectory_path s directory_name
    let c := U.incrementTrialCounterFile path s.prefixed_topic_name_ w
    if !c.1 then (.error .counterIncrementFailed, s, c.2)
    else
      let t := U.getTrialId path s.description_.trial s.prefixed_topic_name_ c.2
      let s := { s with description_ := { s.description_ with trial := t.2.1 } }
      if !t.1 then (.error .trialIdFailed, s, t.2.2)
      else if !U.checkForCompleteness path s.description_.trial s.prefixed_topic_name_ t.2.2
      then (.error .incomplete, s, t.2.2)
      else (.ok (), s, t.2.2)

/-- The directory part of the name of a data file (lines 312-321): the session's directory
with a trailing slash, followed by `directory_name` and a trailing slash when
`directory_name` is not empty. -/
def data_directory (s : TaskRecorderIO) (directory_name : String) : String :=
  if !directory_name.isEmpty then
    U.appendTrailingSlash
      (U.getPathNameIncludingTrailingSlash s.absolute_data_directory_path_ ++ directory_name)
  else U.getPathNameIncludingTrailingSlash s.absolute_data_directory_path_

/-- Lines 309-324 of `TaskRecorderIO::writeRecordedData`: the checks and the resolution of
the trial id that lead to the name of the data file. -/
def writeRecordedData_file_name (s : TaskRecorderIO) (directory_name : String) (w : W) :
    Except Failure String × TaskRecorderIO × W :=
  if !s.initialized_ then (.error .notInitialized, s, w)
  else
    let c := U.checkAndCreateDirectories s.data_directory_name_ w
    if !c.1 then (.error .verifyFailed, s, c.2)
    else
      let file_name := U.getPathNameIncludingTrailingSlash s.absolute_data_directory_path_
      let path := subdirectory_path s directory_name
      let named : Except Failure String × W :=
        if !directory_name.isEmpty then
          let file_name := file_name ++ directory_name
          let d := U.checkForDirectory file_name c.2
          if !d.1 then (.error .directoryCheckFailed, d.2)
          else (.ok (U.appendTrailingSlash file_name), d.2)
        else (.ok file_name, c.2)
      match named with
      | (.error e, w1) => (.error e, s, w1)
      | (.ok file_name, w1) =>
        let t := U.getTrialId path s.description_.trial s.prefixed_topic_name_ w1
        let s := { s with description_ := { s.description_ with trial := t.2.1 } }
        if !t.1 then (.error .trialIdFailed, s, t.2.2)
        else
          (.ok (file_name ++ U.getDataFileName s.prefixed_topic_name_ s.description_.trial),
            s, t.2.2)

/-- `TaskRecorderIO::writeRecordedData` (lines 306-328). -/
def writeRecordedData (s : TaskRecorderIO) (directory_name : String) (w : W) :
    Except Failure Unit × TaskRecorderIO × W :=
  match writeRecordedData_file_name U s directory_name w with
  | (.error e, s1, w1) => (.error e, s1, w1)
  | (.ok file_name, s1, w1) =>
    let b := U.writeToBagFileWithTimeStamps s1.messages_ s1.topic_name_ file_name w1
    if !b.1 then (.error .writeFailed, s1, b.2)
    else incrementCounterFile U s1 directory_name b.2

/-- `TaskRecorderIO::getAbsFileName` (lines 330-338). -/
def getAbsFileName (s : TaskRecorderIO) (description : Description) : Except Failure String :=
  let path := s.data_directory_name_ ++ U.getFileName description
  let abs_file_name := U.getPathNameIncludingTrailingSlash path
  .ok (abs_file_name ++ U.getDataFileName s.prefixed_topic_name_ description.trial)

/-- `TaskRecorderIO::readDataSamples` (lines 340-356). -/
def readDataSamples (s : TaskRecorderIO) (description : Description) (w : W) :
    Except Failure (List DataSample) :=
  match getAbsFileName U s description with
  | .error _ => .error .absFileNameFailed
  | .ok abs_file_name =>
    match U.readFromBagFile s.topic_name_ abs_file_name w with
    | none => .error .readFailed
    | some msgs => .ok msgs

/-- `TaskRecorderIO::getList` (lines 444-449). -/
def getList (s : TaskRecorderIO) (w : W) : Except Failure (List String) :=
  match U.getDirectoryList s.data_directory_name_ w with
  | none => .error .directoryListFailed
  | some descriptions => .ok descriptions

/-- Lines 361-384 of `TaskRecorderIO::writeRecordedDataToCLMCFile`: the two assertions, the
checks and the resolution of the trial id that lead to the name of the CLMC file. -/
def writeRecordedDataToCLMCFile_file_name (s : TaskRecorderIO) (directory_name : String)
    (w : W) : Except Failure String × TaskRecorderIO × W :=
  if !s.initialized_ then (.error .notInitialized, s, w)
  else if s.messages_.isEmpty then (.error .messagesEmpty, s, w)
  else
    let c := U.checkAndCreateDirectories s.data_directory_name_ w
    if !c.1 then (.error .dataDirectoryFailed, s, c.2)
    else
      let file_name := U.getPathNameIncludingTrailingSlash s.absolute_data_directory_path_
      let path := subdirectory_path s directory_name
      let named : Except Failure String × W :=
        if !directory_name.isEmpty then
          let file_name := file_name ++ directory_name
          let d := U.checkForDirectory file_name c.2
          if !d.1 then (.error .directoryCheckFailed, d.2)
          else (.ok (U.appendTrailingSlash file_name), d.2)
        else (.ok file_name, c.2)
      match named with
      | (.error e, w1) => (.error e, s, w1)
      | (.ok file_name, w1) =>
        let t := U.getTrialId path s.description_.trial s.prefixed_topic_name_ w1
        let s := { s with description_ := { s.description_ with trial := t.2.1 } }
        if !t.1 then (.error .trialIdFailed, s, t.2.2)
        else
          match U.setCLMCFileName s.description_.trial with
          | none => (.error .clmcFileNameFailed, s, t.2.2)
          | some clmc_file_name => (.ok (file_name ++ clmc_file_name), s, t.2.2)

/-- The time stamp `messages_[i].header.stamp.toSec()`; the source reads it only at
positions inside the buffer. -/
def stamp_at (messages_ : List DataSample) (i : Nat) : ℚ :=
  match messages_[i]? with
  | some msg => msg.stamp
  | none => 0

/-- Lines 386-392: `trajectory_duration`, the time from the first to the last sample, set
to 1 when the buffer holds exactly one sample. -/
def trajectory_duration (messages_ : List DataSample) : ℚ :=
  let TRAJECTORY_LENGTH := messages_.length
  let trajectory_duration := stamp_at messages_ (TRAJECTORY_LENGTH - 1) - stamp_at messages_ 0
  if TRAJECTORY_LENGTH = 1 then 1 else trajectory_duration

/-- The inner loop `data[1 + j] = messages_[i].data[j]` (lines 407-408) from position `j`
on.  A position beyond the end of `data` is not written (the source writes out of bounds
there). -/
def fill_values : List ℚ → Nat → List ℚ → List ℚ
  | [], _, data => data
  | v :: vs, j, data => fill_values vs (j + 1) (data.set (1 + j) v)

/-- Lines 406-408: the row buffer `data` after the sample `msg` has been written into it. -/
def fill_row (msg : DataSample) (data : List ℚ) : List ℚ :=
  fill_values msg.data 0 (data.set 0 (U.to_float msg.stamp))

/-- The loop over the samples (lines 403-411) from the sample at the head of the list on,
with the row buffer `data` as the samples before left it; `none` when `trajectory->add`
returns false. -/
def add_rows : List DataSample → List ℚ → T → Option T
  | [], _, trajectory => some trajectory
  | msg :: rest, data, trajectory =>
    let data := fill_row U msg data
    match U.trajectory_add trajectory data true with
    | none => none
    | some trajectory => add_rows rest data trajectory

/-- Lines 397-399: the variable names of the export, `ros_time` followed by the names of
the first sample. -/
def clmc_variable_names (messages_ : List DataSample) : List String :=
  "ros_time" :: (match messages_[0]? with
    | some msg => msg.names
    | none => [])

/-- The row buffer `data` after the loop of lines 403-411 has run over the samples
`messages_`, starting from the buffer `data`. -/
def buffer_after (messages_ : List DataSample) (data : List ℚ) : List ℚ :=
  messages_.foldl (fun data msg => fill_row U msg data) data

/-- The rows the loop of lines 403-411 hands to `trajectory->add` (line 409), one per
sample and in the order of the samples, starting from the row buffer `data`. -/
def clmc_rows : List DataSample → List ℚ → List (List ℚ)
  | [], _ => []
  | msg :: rest, data => fill_row U msg data :: clmc_rows rest (fill_row U msg data)

/-- The rows of the export of a buffer: `clmc_rows` from the buffer of line 402, which has
one zero per variable name. -/
def clmc_export_rows (messages_ : List DataSample) : List (List ℚ) :=
  clmc_rows U messages_ (List.replicate (clmc_variable_names messages_).length 0)

/-- The call `trajectory->add(row, true)` for each row of a list in turn; `none` when one
of the calls returns false. -/
def add_all_rows : List (List ℚ) → T → Option T
  | [], trajectory => some trajectory
  | row :: rest, trajectory =>
    match U.trajectory_add trajectory row true with
    | none => none
    | some trajectory => add_all_rows rest trajectory

/-- Lines 396-412 of `TaskRecorderIO::writeRecordedDataToCLMCFile`: the export is built
with the sampling frequency `SAMPLING_FREQUENCY`, filled row by row and written. -/
def export_trajectory (s : TaskRecorderIO) (SAMPLING_FREQUENCY : ℚ) (file_name : String)
    (w : W) : Except Failure Unit × TaskRecorderIO × W :=
  let TRAJECTORY_LENGTH := s.messages_.length
  let variable_names : List String :=
    "ros_time" :: (match s.messages_[0]? with
      | some msg => msg.names
      | none => [])
  match U.trajectory_initialize variable_names SAMPLING_FREQUENCY true TRAJECTORY_LENGTH with
  | none => (.error .trajectoryFailed, s, w)
  | some trajectory =>
    let data : List ℚ := List.replicate variable_names.length 0
    match add_rows U s.messages_ data trajectory with
    | none => (.error .trajectoryFailed, s, w)
    | some trajectory =>
      let c := U.trajectory_writeToCLMCFile trajectory file_name true w
      (if c.1 then .ok () else .error .trajectoryFailed, s, c.2)

/-- `TaskRecorderIO::writeRecordedDataToCLMCFile` (lines 358-413). -/
def writeRecordedDataToCLMCFile (s : TaskRecorderIO) (directory_name : String) (w : W) :
    Except Failure Unit × TaskRecorderIO × W :=
  match writeRecordedDataToCLMCFile_file_name U s directory_name w with
  | (.error e, s1, w1) => (.error e, s1, w1)
  | (.ok file_name, s1, w1) =>
    let TRAJECTORY_LENGTH := s1.messages_.length
    let trajectory_duration := trajectory_duration s1.messages_
    if ¬ (trajectory_duration > 0) then (.error .durationNotPositive, s1, w1)
    else
      let SAMPLING_FREQUENCY := (TRAJECTORY_LENGTH : ℚ) / trajectory_duration
      export_trajectory U s1 SAMPLING_FREQUENCY file_name w1

/-- The value the samples `earlier` (in buffer order) leave in column `1 + j` of a row
buffer that started with zeros: the `j`-th value of the most recent of them that has one,
0 when none has. -/
def last_supplied (earlier : List DataSample) (j : Nat) : ℚ :=
  earlier.foldl (fun held msg =>
    match msg.data[j]? with
    | some v => v
    | none => held) 0

end Operations

/-! ### The trial counter and a concrete world -/

/-- What the specification says of the collaborators as far as the trial counter is
concerned ("a persisted non-negative integer per (directory, topic) pair";
`incrementCounterFile` "persists `counter += 1` for `(path, topic)`"): `counter w path topic`
reads the counter in the world `w`; creating or checking directories, resolving the trial id
and writing a data file leave every counter as it is, and `incrementTrialCounterFile`
advances the counter of its key by one when it succeeds and leaves it when it fails. -/
structure CounterContract {W T : Type} (U : Collaborators W T)
    (counter : W → String → String → Nat) : Prop where
  checkAndCreateDirectories : ∀ d w path topic,
    counter (U.checkAndCreateDirectories d w).2 path topic = counter w path topic
  checkForDirectory : ∀ d w path topic,
    counter (U.checkForDirectory d w).2 path topic = counter w path topic
  getTrialId : ∀ p trial t w path topic,
    counter (U.getTrialId p trial t w).2.2 path topic = counter w path topic
  writeToBagFileWithTimeStamps : ∀ msgs t f w path topic,
    counter (U.writeToBagFileWithTimeStamps msgs t f w).2 path topic = counter w path topic
  increment_succeeds : ∀ path topic w, (U.incrementTrialCounterFile path topic w).1 = true →
    counter (U.incrementTrialCounterFile path topic w).2 path topic = counter w path topic + 1
  increment_fails : ∀ path topic w, (U.incrementTrialCounterFile path topic w).1 = false →
    counter (U.incrementTrialCounterFile path topic w).2 path topic = counter w path topic

/-- Modelled from the spec: what `task_recorder2_utilities::checkForCompleteness`, which is
not part of the two source files, returns.  "Completeness: the invariant that all trials
below the current one have their expected files present": with `present w path topic i`
telling whether the expected file of trial `i` is present in the world `w`, the check for
trial `k` succeeds exactly when the file of every trial `0 ≤ i < k` is present. -/
structure CompletenessContract {W T : Type} (U : Collaborators W T)
    (present : W → String → String → Nat → Bool) : Prop where
  complete_iff : ∀ path (trial : Int) topic w,
    U.checkForCompleteness path trial topic w = true ↔
      ∀ i : Nat, (i : Int) < trial → present w path topic i = true

/-- Modelled from the spec: the CLMC export, which `dmp_lib::Trajectory` (not part of the
two source files) holds: "a variable-name list, a scalar sampling frequency, and one row of
values per sample". -/
structure Trajectory where
  variable_names : List String
  sampling_frequency : ℚ
  rows : List (List ℚ)
  deriving DecidableEq, Repr

/-- Modelled from the spec: a world for the collaborators, which are not part of the two
source files: the directories that exist, the trial counter files (one natural number per
(directory, topic) pair), the container files with the samples they hold, the CLMC exports
and the configuration. -/
structure World where
  directories : List String
  counters : List ((String × String) × Nat)
  bag_files : List (String × List DataSample)
  clmc_files : List (String × Trajectory)
  config_bool : List (String × Bool)
  config_string : List (String × String)
  deriving DecidableEq, Repr

/-- Modelled from the spec: the value a key-value list holds for a key. -/
def assoc_get {κ ν : Type} [DecidableEq κ] (k : κ) : List (κ × ν) → Option ν
  | [] => none
  | (k1, v1) :: rest => if k1 = k then some v1 else assoc_get k rest

/-- Modelled from the spec: the trial counter of `(path, topic)`; a key without a counter
file counts as 0. -/
def World.counter (w : World) (path topic : String) : Nat :=
  match assoc_get (path, topic) w.counters with
  | some n => n
  | none => 0

/-- Modelled from the spec: decimal digits of a number, most significant first (`fuel`
bounds the number of digits). -/
def decimal : Nat → Nat → List Char
  | 0, _ => []
  | fuel + 1, n =>
    (if n < 10 then [] else decimal fuel (n / 10)) ++
      [['0', '1', '2', '3', '4', '5', '6', '7', '8', '9'].getD (n % 10) '0']

/-- Modelled from the spec: the data file of a trial, "named deterministically from
`(topic, trialId)`" as `<topic>_trial_<n>.bag`, the topic without its leading separator. -/
def data_file_name (topic : String) (trial : Int) : String :=
  ⟨topic.data.dropWhile (· = '/')⟩ ++ "_trial_" ++ ⟨decimal (trial.toNat + 1) trial.toNat⟩
    ++ ".bag"

/-- Modelled from the spec: the world with a directory added, if it was not there. -/
def World.with_directory (w : World) (p : String) : World :=
  if p ∈ w.directories then w else { w with directories := w.directories ++ [p] }

/-- Modelled from the spec: key-value list with the value of a key replaced or added. -/
def assoc_set {κ ν : Type} [DecidableEq κ] (k : κ) (v : ν) : List (κ × ν) → List (κ × ν)
  | [] => [(k, v)]
  | (k1, v1) :: rest => if k1 = k then (k, v) :: rest else (k1, v1) :: assoc_set k v rest

/-- Modelled from the spec: a string with a separator added at its end unless it has one. -/
def with_trailing_slash (p : String) : String :=
  if p.data.getLast? = some '/' then p else p ++ "/"

/-- Modelled from the spec: whether the expected file of trial `i` of `topic`, the data
file `<path>/<topic>_trial_<i>.bag`, is present in the world. -/
def World.trial_file_present (w : World) (path topic : String) (i : Nat) : Bool :=
  (assoc_get (with_trailing_slash path ++ data_file_name topic i) w.bag_files).isSome

/-- Modelled from the spec: the collaborators of `TaskRecorderIO` over `World`, as the
specification describes them: directories are created when absent, the trial id of
`(path, topic)` is the value of its counter, a trial is complete when its data file exists,
completeness of trial `k` means every trial below `k` is complete, the counter file is
advanced by one, files are written at the given name, and conversions are exact. -/
def exampleCollaborators : Collaborators World Trajectory where
  removeLeadingSlash t := ⟨t.data.dropWhile (· = '/')⟩
  appendLeadingSlash t := if t.data.head? = some '/' then t else "/" ++ t
  appendTrailingSlash := with_trailing_slash
  read_bool key w := assoc_get key w.config_bool
  read_string key w := assoc_get key w.config_string
  writeToBagFileWithTimeStamps msgs _ file_name w :=
    (true, { w with bag_files := assoc_set file_name msgs w.bag_files })
  readFromBagFile _ file_name w := assoc_get file_name w.bag_files
  getDirectoryPath package_name directory_name := "/" ++ package_name ++ "/" ++ directory_name
  checkAndCreateDirectories d w := (true, w.with_directory d)
  getFileName description := "/" ++ description.label
  createSymlinks _ w := w
  checkForDirectory p w := (true, w.with_directory p)
  getTrialId path _ topic w := (true, (w.counter path topic : Int), w)
  checkForCompleteness path trial topic w :=
    (List.range trial.toNat).all fun k => w.trial_file_present path topic k
  incrementTrialCounterFile path topic w :=
    (true, { w with counters := assoc_set (path, topic) (w.counter path topic + 1) w.counters })
  getPathNameIncludingTrailingSlash := with_trailing_slash
  getDataFileName := data_file_name
  setCLMCFileName trial := some (⟨'d' :: decimal (trial.toNat + 1) trial.toNat⟩)
  getDirectoryList p w :=
    some (w.directories.filter fun d => p.data.isPrefixOf d.data && d != p)
  path_exists p w := decide (p ∈ w.directories)
  create_directory p w := (true, w.with_directory p)
  trajectory_initialize variable_names sampling_frequency _ _ :=
    some { variable_names := variable_names, sampling_frequency := sampling_frequency,
           rows := [] }
  trajectory_add trajectory data _ :=
    if data.length = trajectory.variable_names.length then
      some { trajectory with rows := trajectory.rows ++ [data] }
    else none
  trajectory_writeToCLMCFile trajectory file_name _ w :=
    (true, { w with clmc_files := assoc_set file_name trajectory w.clmc_files })
  to_float x := x

/-- A world with the configuration `initialize` reads and nothing on disk. -/
def exampleWorld : World :=
  { directories := [], counters := [], bag_files := [], clmc_files := [],
    config_bool := [("write_out_resampled_data", true), ("write_out_raw_data", true),
      ("write_out_clmc_data", true)],
    config_string := [("recorder_package_name", "pkg"),
      ("recorder_data_directory_name", "data")] }

/-- A world in which two trials of `/joint_states` have been counted in `/pkg/data/grasp`
and the data files listed in `bag_files` exist. -/
def exampleWorldAfterTwoTrials (bag_files : List (String × List DataSample)) : World :=
  { exampleWorld with
    directories := ["/pkg/data", "/pkg/data/grasp"]
    counters := [(("/pkg/data/grasp", "/joint_states"), 2)]
    bag_files := bag_files }

/-- Three samples with the channel names `a`, `b`: the first carries both values, the
second one value, the third none. -/
def exampleRaggedSamples : List DataSample :=
  [⟨0, ["a", "b"], [1, 2]⟩, ⟨1, ["a", "b"], [3]⟩, ⟨2, ["a", "b"], []⟩]

/-- A world in which two trials of `/joint_states` have been written and counted in the
subdirectory `raw` of `/pkg/data/grasp`. -/
def exampleWorldRawTrials : World :=
  { exampleWorld with
    directories := ["/pkg/data", "/pkg/data/grasp", "/pkg/data/grasp/raw"]
    counters := [(("/pkg/data/grasp/raw", "/joint_states"), 2)]
    bag_files := [("/pkg/data/grasp/raw/joint_states_trial_0.bag", []),
      ("/pkg/data/grasp/raw/joint_states_trial_1.bag", [])] }

/-- A session after `initialize("/joint_states")` and `setDescription` in `exampleWorld`,
holding the samples `msgs`. -/
def exampleSession (msgs : List DataSample) : TaskRecorderIO :=
  { topic_name_ := "/joint_states", prefixed_topic_name_ := "/joint_states",
    messages_ := msgs, write_out_raw_data_ := true, write_out_clmc_data_ := true,
    write_out_resampled_data_ := true, initialized_ := true,
    description_ := { label := "grasp", trial := 0 },
    data_directory_name_ := "/pkg/data",
    absolute_data_directory_path_ := "/pkg/data/grasp" }

end task_recorder2_io

namespace skill_library

/-! ## Lemmas on the ordering and the map -/

theorem lexLt_trichotomy : ∀ a b : List Char, lexLt a b = false → lexLt b a = false → a = b
  | [], [], _, _ => rfl
  | [], _ :: _, h, _ => by simp [lexLt] at h
  | _ :: _, [], _, h => by simp [lexLt] at h
  | a :: as, b :: bs, h1, h2 => by
    rcases lt_trichotomy a b with hab | hab | hab
    · simp [lexLt, hab] at h1
    · subst hab
      simp only [lexLt, lt_self_iff_false, if_false] at h1 h2
      rw [lexLt_trichotomy as bs (by simpa using h1) (by simpa using h2)]
    · simp [lexLt, hab] at h2

theorem less_trichotomy (a b : String) (h1 : less a b = false) (h2 : less b a = false) :
    a = b :=
  String.ext (lexLt_trichotomy _ _ h1 h2)

theorem lexLt_irrefl : ∀ a : List Char, lexLt a a = false
  | [] => rfl
  | a :: as => by simp [lexLt, lexLt_irrefl as]

theorem less_irrefl (a : String) : less a a = false := lexLt_irrefl _

theorem lexLt_asymm : ∀ a b : List Char, lexLt a b = true → lexLt b a = false
  | [], [], h => by simp [lexLt] at h
  | [], _ :: _, _ => rfl
  | _ :: _, [], h => by simp [lexLt] at h
  | a :: as, b :: bs, h => by
    rcases lt_trichotomy a b with hab | hab | hab
    · simp [lexLt, hab, not_lt_of_gt hab]
    · subst hab
      simp only [lexLt, lt_self_iff_false, if_false] at h ⊢
      exact lexLt_asymm as bs h
    · simp [lexLt, hab, not_lt_of_gt hab] at h

theorem lexLt_trans : ∀ a b c : List Char, lexLt a b = true → lexLt b c = true →
    lexLt a c = true
  | [], [], _, h, _ => by simp [lexLt] at h
  | [], _ :: _, [], _, h => by simp [lexLt] at h
  | [], _ :: _, _ :: _, _, _ => rfl
  | _ :: _, [], _, h, _ => by simp [lexLt] at h
  | _ :: _, _ :: _, [], _, h => by simp [lexLt] at h
  | x :: xs, y :: ys, z :: zs, h1, h2 => by
    rcases lt_trichotomy x y with hxy | hxy | hxy
    · rcases lt_trichotomy y z with hyz | hyz | hyz
      · simp [lexLt, lt_trans hxy hyz]
      · subst hyz
        simp [lexLt, hxy]
      · simp [lexLt, hyz, not_lt_of_gt hyz] at h2
    · subst hxy
      simp only [lexLt, lt_self_iff_false, if_false] at h1
      rcases lt_trichotomy x z with hyz | hyz | hyz
      · simp [lexLt, hyz]
      · subst hyz
        simp only [lexLt, lt_self_iff_false, if_false] at h2 ⊢
        exact lexLt_trans xs ys zs h1 h2
      · simp [lexLt, hyz, not_lt_of_gt hyz] at h2
    · simp [lexLt, hxy, not_lt_of_gt hxy] at h1

theorem less_asymm (a b : String) (h : less a b = true) : less b a = false :=
  lexLt_asymm _ _ h

theorem less_trans (a b c : String) (h1 : less a b = true) (h2 : less b c = true) :
    less a c = true :=
  lexLt_trans _ _ _ h1 h2

/-- The sorted file names are in ascending order: no name is greater than a later one. -/
theorem std_sort_sorted (l : List String) :
    (std_sort l).Pairwise (fun a b => less b a = false) := by
  haveI : IsTotal String (fun a b => less b a = false) := ⟨fun a b => by
    cases h : less b a with
    | false => exact Or.inl rfl
    | true => exact Or.inr (less_asymm b a h)⟩
  haveI : IsTrans String (fun a b => less b a = false) := ⟨fun a b c hab hbc => by
    cases hca : less c a with
    | false => rfl
    | true =>
      cases hab1 : less a b with
      | false =>
        have e := less_trichotomy a b hab1 hab
        subst e
        rw [hca] at hbc
        exact hbc
      | true =>
        have := less_trans c a b hca hab1
        rw [this] at hbc
        exact hbc⟩
  exact List.sorted_insertionSort (fun a b : String => less b a = false) l

/-- Sorting distinct file names gives a strictly ascending list. -/
theorem std_sort_strict (l : List String) (hnd : l.Nodup) :
    (std_sort l).Pairwise (fun a b => less a b = true) := by
  have hs := std_sort_sorted l
  have hn : (std_sort l).Nodup := (List.perm_insertionSort _ l).nodup_iff.mpr hnd
  have hboth := hs.and hn
  refine hboth.imp ?_
  intro a b h
  cases hab : less a b with
  | true => rfl
  | false => exact absurd (less_trichotomy a b hab h.1) h.2

theorem map_find_eq_none {π : Type} (name : String) :
    ∀ m : List (String × Message π), map_find name m = none ↔ name ∉ keys m
  | [] => by simp [map_find, keys]
  | (k, v) :: rest => by
    have ih := map_find_eq_none name rest
    by_cases hk : k = name
    · simp [map_find, keys, hk]
    · simp only [map_find, hk, if_false, ih, keys, List.map_cons, List.mem_cons, not_or]
      exact ⟨fun h => ⟨fun e => hk e.symm, h⟩, fun h => h.2⟩

theorem add_loop_absent {π : Type} (name : String) (msg : Message π) :
    ∀ (m : List (String × Message π)) (index : Int), map_find name m = none →
      add_loop name m msg index = (m, msg, false, index + m.length)
  | [], index, _ => by simp [add_loop]
  | (k, v) :: rest, index, h => by
    by_cases hk : k = name
    · simp [map_find, hk] at h
    · simp only [map_find, hk, if_false] at h
      simp only [add_loop, hk, if_false, add_loop_absent name msg rest (index + 1) h,
        List.length_cons, Nat.cast_add, Nat.cast_one]
      congr 3
      ring

theorem add_loop_present {π : Type} (name : String) (msg : Message π) :
    ∀ (m : List (String × Message π)) (index : Int) (old : Message π),
      map_find name m = some old →
        (add_loop name m msg index).2.2.1 = true ∧
        (add_loop name m msg index).2.1 = ⟨old.id, msg.payload⟩ ∧
        map_find name (add_loop name m msg index).1 = some ⟨old.id, msg.payload⟩ ∧
        (add_loop name m msg index).1.length = m.length ∧
        keys (add_loop name m msg index).1 = keys m ∧
        ∀ other, other ≠ name →
          map_find other (add_loop name m msg index).1 = map_find other m
  | [], _, _, h => by simp [map_find] at h
  | (k, v) :: rest, index, old, h => by
    by_cases hk : k = name
    · simp only [map_find, hk, if_true, Option.some.injEq] at h
      subst h
      simp only [add_loop, hk, if_true, map_find, List.length_cons, keys, List.map_cons,
        true_and]
      intro other ho
      have hne : ¬ name = other := fun e => ho e.symm
      simp [map_find, hne]
    · simp only [map_find, hk, if_false] at h
      obtain ⟨h1, h2, h3, h4, h5, h6⟩ := add_loop_present name msg rest (index + 1) old h
      simp only [keys] at h5
      simp only [add_loop, hk, if_false, map_find, h1, h2, h3, List.length_cons, h4, keys,
        List.map_cons, h5, true_and]
      intro other ho
      by_cases hko : k = other
      · simp [hko]
      · simp [hko, h6 other ho]

theorem map_find_insert_self {π : Type} (name : String) (msg : Message π) :
    ∀ m : List (String × Message π), map_find name m = none →
      map_find name (map_insert name msg m) = some msg
  | [], _ => by simp [map_insert, map_find]
  | (k, v) :: rest, h => by
    by_cases hk : k = name
    · simp [map_find, hk] at h
    · simp only [map_find, hk, if_false] at h
      simp only [map_insert]
      split
      · simp [map_find]
      · split
        · simp [map_find, hk, map_find_insert_self name msg rest h]
        · rename_i h1 h2
          exact absurd (less_trichotomy name k (by simpa using h1) (by simpa using h2)).symm hk

theorem map_find_insert_other {π : Type} (name other : String) (msg : Message π)
    (ho : other ≠ name) :
    ∀ m : List (String × Message π),
      map_find other (map_insert name msg m) = map_find other m
  | [] => by
    have hne : ¬ name = other := fun e => ho e.symm
    simp [map_insert, map_find, hne]
  | (k, v) :: rest => by
    have hne : ¬ name = other := fun e => ho e.symm
    simp only [map_insert]
    split
    · simp [map_find, hne]
    · split
      · simp [map_find, map_find_insert_other name other msg ho rest]
      · rfl

theorem map_insert_perm {π : Type} (name : String) (msg : Message π) :
    ∀ m : List (String × Message π), map_find name m = none →
      (map_insert name msg m).Perm ((name, msg) :: m)
  | [], _ => by simp [map_insert]
  | (k, v) :: rest, h => by
    by_cases hk : k = name
    · simp [map_find, hk] at h
    · simp only [map_find, hk, if_false] at h
      simp only [map_insert]
      split
      · exact List.Perm.refl _
      · split
        · exact ((map_insert_perm name msg rest h).cons (k, v)).trans (List.Perm.swap _ _ _)
        · rename_i h1 h2
          exact absurd (less_trichotomy name k (by simpa using h1) (by simpa using h2)).symm hk

theorem ids_add_loop {π : Type} (name : String) (msg : Message π) :
    ∀ (m : List (String × Message π)) (index : Int),
      ids (add_loop name m msg index).1 = ids m
  | [], _ => rfl
  | (k, v) :: rest, index => by
    by_cases hk : k = name
    · simp [add_loop, hk, ids]
    · have ih := ids_add_loop name msg rest (index + 1)
      simp only [ids] at ih
      simp [add_loop, hk, ids, ih]

theorem add_of_absent {π : Type} (lib : DMPLibrary π) (msg : Message π) (name : String)
    (h : get lib name = none) :
    add lib msg name =
      (true, stored_new lib msg,
        { lib with map_ := map_insert name (stored_new lib msg) lib.map_ }) := by
  unfold get at h
  simp only [add, add_loop_absent name msg lib.map_ 1 h, Bool.not_false, if_true, stored_new]
  by_cases hid : msg.id > 0
  · simp [hid]
  · simp [hid, add_comm]

theorem add_of_present {π : Type} (lib : DMPLibrary π) (msg : Message π) (name : String)
    (old : Message π) (h : get lib name = some old) :
    add lib msg name =
      (true, ⟨old.id, msg.payload⟩, { lib with map_ := (add_loop name lib.map_ msg 1).1 }) := by
  unfold get at h
  obtain ⟨h1, h2, -⟩ := add_loop_present name msg lib.map_ 1 old h
  simp [add, h1, h2]

theorem get_add_other {π : Type} (lib : DMPLibrary π) (msg : Message π) (name other : String)
    (ho : other ≠ name) : get (add lib msg name).2.2 other = get lib other := by
  cases h : get lib name with
  | none =>
    rw [add_of_absent lib msg name h]
    exact map_find_insert_other name other _ ho lib.map_
  | some old =>
    rw [add_of_present lib msg name old h]
    exact (add_loop_present name msg lib.map_ 1 old h).2.2.2.2.2 other ho

/-! ### The class invariant of the map is kept -/

theorem keys_add_loop {π : Type} (name : String) (msg : Message π) :
    ∀ (m : List (String × Message π)) (index : Int),
      keys (add_loop name m msg index).1 = keys m
  | [], _ => rfl
  | (k, v) :: rest, index => by
    by_cases hk : k = name
    · simp [add_loop, hk, keys]
    · have ih := keys_add_loop name msg rest (index + 1)
      simp only [keys] at ih
      simp [add_loop, hk, keys, ih]

theorem mem_keys_map_insert {π : Type} (name : String) (msg : Message π) (k1 : String) :
    ∀ m : List (String × Message π), k1 ∈ keys (map_insert name msg m) →
      k1 = name ∨ k1 ∈ keys m
  | [], h => by
    simp only [map_insert, keys, List.map_cons, List.map_nil, List.mem_singleton] at h
    exact Or.inl h
  | (k, v) :: rest, h => by
    simp only [map_insert] at h
    split at h
    · simp only [keys, List.map_cons, List.mem_cons] at h ⊢
      exact h
    · split at h
      · simp only [keys, List.map_cons, List.mem_cons] at h ⊢
        rcases h with h | h
        · exact Or.inr (Or.inl h)
        · rcases mem_keys_map_insert name msg k1 rest h with h1 | h1
          · exact Or.inl h1
          · exact Or.inr (Or.inr h1)
      · exact Or.inr h

theorem wellFormed_map_insert {π : Type} (name : String) (msg : Message π) :
    ∀ m : List (String × Message π), WellFormed m → WellFormed (map_insert name msg m)
  | [], _ => by simp [map_insert, WellFormed, keys]
  | (k, v) :: rest, h => by
    have h0 := h
    simp only [WellFormed, keys, List.map_cons, List.pairwise_cons] at h
    simp only [map_insert]
    split
    · rename_i hlt
      refine List.pairwise_cons.mpr ⟨?_, h0⟩
      intro k1 hk1
      rcases List.mem_cons.mp hk1 with e | e
      · rw [e]; exact hlt
      · exact less_trans name k k1 hlt (h.1 k1 e)
    · split
      · rename_i hlt
        refine List.pairwise_cons.mpr ⟨?_, wellFormed_map_insert name msg rest h.2⟩
        intro k1 hk1
        rcases mem_keys_map_insert name msg k1 rest hk1 with e | e
        · rw [e]; exact hlt
        · exact h.1 k1 e
      · exact h0

/-- The operation `add` keeps the keys of the map strictly ascending. -/
theorem wellFormed_add {π : Type} (lib : DMPLibrary π) (msg : Message π) (name : String)
    (h : WellFormed lib.map_) : WellFormed (add lib msg name).2.2.map_ := by
  have hk := keys_add_loop name msg lib.map_ 1
  have h1 : WellFormed (add_loop name lib.map_ msg 1).1 := by
    unfold WellFormed
    rw [hk]
    exact h
  simp only [add]
  by_cases hf : (add_loop name lib.map_ msg 1).2.2.1 = true
  · simp only [hf, Bool.not_true, Bool.false_eq_true, if_false]
    exact h1
  · simp only [hf, Bool.not_eq_true, Bool.not_false, if_true]
    exact wellFormed_map_insert name _ _ h1

/-- C1: when the cache already holds an entry under name `n` (with identifier `old.id`),
`add(artifact, n)` returns true and an immediate `get(n)` returns the incoming payload with
the identifier the entry had before; the same message is left in the caller's variable and
the number of entries is unchanged, whatever identifier the incoming artifact carries. -/
theorem add_overwrite_then_get {π : Type} (lib : DMPLibrary π) (n : String)
    (old artifact : Message π) (h : get lib n = some old) :
    (add lib artifact n).1 = true ∧
    get (add lib artifact n).2.2 n = some ⟨old.id, artifact.payload⟩ ∧
    (add lib artifact n).2.1 = ⟨old.id, artifact.payload⟩ ∧
    (add lib artifact n).2.2.map_.length = lib.map_.length := by
  rw [add_of_present lib artifact n old h]
  obtain ⟨-, -, h3, h4, -⟩ := add_loop_present n artifact lib.map_ 1 old h
  exact ⟨rfl, h3, rfl, h4⟩

theorem add_overwrite_then_get_witness :
    get (⟨true, [("grasp", ⟨7, 10⟩), ("reach", ⟨2, 11⟩)], "/lib"⟩ : DMPLibrary Nat) "grasp"
        = some ⟨7, 10⟩ ∧
      ((add (⟨true, [("grasp", ⟨7, 10⟩), ("reach", ⟨2, 11⟩)], "/lib"⟩ : DMPLibrary Nat)
          ⟨99, 20⟩ "grasp").1 = true ∧
        get (add (⟨true, [("grasp", ⟨7, 10⟩), ("reach", ⟨2, 11⟩)], "/lib"⟩ : DMPLibrary Nat)
          ⟨99, 20⟩ "grasp").2.2 "grasp" = some ⟨7, 20⟩ ∧
        (add (⟨true, [("grasp", ⟨7, 10⟩), ("reach", ⟨2, 11⟩)], "/lib"⟩ : DMPLibrary Nat)
          ⟨99, 20⟩ "grasp").2.1 = ⟨7, 20⟩ ∧
        (add (⟨true, [("grasp", ⟨7, 10⟩), ("reach", ⟨2, 11⟩)], "/lib"⟩ : DMPLibrary Nat)
          ⟨99, 20⟩ "grasp").2.2.map_.length = 2) :=
  ⟨by decide, add_overwrite_then_get _ "grasp" ⟨7, 10⟩ ⟨99, 20⟩ (by decide)⟩

/-- C3: for a cache with `k` entries and a name not present in it, `add(artifact, name)`
returns true; the map afterwards consists of the old entries, unchanged, and exactly one new
entry under that name (so it has `k + 1` entries and every other name looks up as before);
the new entry carries the incoming payload and the incoming identifier if that is positive,
`k + 1` otherwise; the message left in the caller's variable is the stored one. -/
theorem add_new_name {π : Type} (lib : DMPLibrary π) (name : String) (artifact : Message π)
    (h : get lib name = none) :
    (add lib artifact name).1 = true ∧
    (add lib artifact name).2.1 =
      ⟨if artifact.id > 0 then artifact.id else lib.map_.length + 1, artifact.payload⟩ ∧
    get (add lib artifact name).2.2 name = some (add lib artifact name).2.1 ∧
    (add lib artifact name).2.2.map_.Perm ((name, (add lib artifact name).2.1) :: lib.map_) ∧
    (add lib artifact name).2.2.map_.length = lib.map_.length + 1 ∧
    ∀ other, other ≠ name → get (add lib artifact name).2.2 other = get lib other := by
  have hperm := map_insert_perm name (stored_new lib artifact) lib.map_ h
  refine ⟨?_, ?_, ?_, ?_, ?_, fun other ho => get_add_other lib artifact name other ho⟩
  · rw [add_of_absent lib artifact name h]
  · rw [add_of_absent lib artifact name h]; rfl
  · rw [add_of_absent lib artifact name h]
    exact map_find_insert_self name _ lib.map_ h
  · rw [add_of_absent lib artifact name h]; exact hperm
  · rw [add_of_absent lib artifact name h]
    simpa using hperm.length_eq

theorem add_new_name_witness :
    get (⟨true, [("grasp", ⟨7, 10⟩)], "/lib"⟩ : DMPLibrary Nat) "reach" = none ∧
      (add (⟨true, [("grasp", ⟨7, 10⟩)], "/lib"⟩ : DMPLibrary Nat) ⟨0, 20⟩ "reach").2.1
        = ⟨2, 20⟩ ∧
      (add (⟨true, [("grasp", ⟨7, 10⟩)], "/lib"⟩ : DMPLibrary Nat) ⟨0, 20⟩ "reach").2.2.map_
        = [("grasp", ⟨7, 10⟩), ("reach", ⟨2, 20⟩)] :=
  ⟨by decide,
    (add_new_name (⟨true, [("grasp", ⟨7, 10⟩)], "/lib"⟩ : DMPLibrary Nat) "reach" ⟨0, 20⟩
      (by decide)).2.1,
    by decide⟩

/-! ### Sequences of `add` calls -/

theorem add_all_append {π : Type} :
    ∀ (pre post : List (Message π × String)) (lib : DMPLibrary π),
      add_all lib (pre ++ post) = add_all (add_all lib pre) post
  | [], _, _ => rfl
  | c :: pre, post, lib => by
    simp only [List.cons_append, add_all]
    exact add_all_append pre post _

theorem ids_add_of_present {π : Type} (lib : DMPLibrary π) (msg : Message π) (name : String)
    (old : Message π) (h : get lib name = some old) :
    ids (add lib msg name).2.2.map_ = ids lib.map_ := by
  rw [add_of_present lib msg name old h]
  exact ids_add_loop name msg lib.map_ 1

theorem ids_add_of_absent {π : Type} (lib : DMPLibrary π) (msg : Message π) (name : String)
    (h : get lib name = none) :
    (ids (add lib msg name).2.2.map_).Perm ((stored_new lib msg).id :: ids lib.map_) := by
  rw [add_of_absent lib msg name h]
  exact (map_insert_perm name (stored_new lib msg) lib.map_ h).map (fun e => e.2.id)

theorem length_add_of_absent {π : Type} (lib : DMPLibrary π) (msg : Message π)
    (name : String) (h : get lib name = none) :
    (add lib msg name).2.2.map_.length = lib.map_.length + 1 := by
  rw [add_of_absent lib msg name h]
  exact (map_insert_perm name (stored_new lib msg) lib.map_ h).length_eq

theorem length_add_of_present {π : Type} (lib : DMPLibrary π) (msg : Message π)
    (name : String) (old : Message π) (h : get lib name = some old) :
    (add lib msg name).2.2.map_.length = lib.map_.length := by
  rw [add_of_present lib msg name old h]
  exact (add_loop_present name msg lib.map_ 1 old h).2.2.2.1

theorem stored_new_id_pos {π : Type} (lib : DMPLibrary π) (msg : Message π) :
    0 < (stored_new lib msg).id := by
  unfold stored_new
  by_cases hid : msg.id > 0
  · simp [hid]
  · simp only [hid, if_false]
    positivity

theorem ids_pos_add {π : Type} (lib : DMPLibrary π) (msg : Message π) (name : String)
    (hpos : ∀ i ∈ ids lib.map_, (0 : Int) < i) :
    ∀ i ∈ ids (add lib msg name).2.2.map_, (0 : Int) < i := by
  intro i hi
  cases h : get lib name with
  | none =>
    rcases List.mem_cons.mp ((ids_add_of_absent lib msg name h).mem_iff.mp hi) with e | e
    · rw [e]; exact stored_new_id_pos lib msg
    · exact hpos i e
  | some old =>
    rw [ids_add_of_present lib msg name old h] at hi
    exact hpos i hi

theorem ids_pos_add_all {π : Type} :
    ∀ (calls : List (Message π × String)) (lib : DMPLibrary π),
      (∀ i ∈ ids lib.map_, (0 : Int) < i) → ∀ i ∈ ids (add_all lib calls).map_, (0 : Int) < i
  | [], _, h => h
  | c :: rest, lib, h => ids_pos_add_all rest _ (ids_pos_add lib c.1 c.2 h)

theorem id_stable_add {π : Type} (lib : DMPLibrary π) (msg : Message π) (name n : String)
    (e : Message π) (h : get lib n = some e) :
    ∃ e1, get (add lib msg name).2.2 n = some e1 ∧ e1.id = e.id := by
  by_cases hn : n = name
  · subst hn
    rw [add_of_present lib msg n e h]
    exact ⟨_, (add_loop_present n msg lib.map_ 1 e h).2.2.1, rfl⟩
  · exact ⟨e, by rw [get_add_other lib msg name n hn, h], rfl⟩

theorem id_stable_add_all {π : Type} :
    ∀ (calls : List (Message π × String)) (lib : DMPLibrary π) (n : String) (e : Message π),
      get lib n = some e → ∃ e1, get (add_all lib calls) n = some e1 ∧ e1.id = e.id
  | [], _, _, e, h => ⟨e, h, rfl⟩
  | c :: rest, lib, n, e, h => by
    obtain ⟨e1, h1, hid1⟩ := id_stable_add lib c.1 c.2 n e h
    obtain ⟨e2, h2, hid2⟩ := id_stable_add_all rest _ n e1 h1
    exact ⟨e2, h2, hid2.trans hid1⟩

theorem denseIds_add {π : Type} (lib : DMPLibrary π) (msg : Message π) (name : String)
    (hid : msg.id ≤ 0) (hd : DenseIds lib) : DenseIds (add lib msg name).2.2 := by
  obtain ⟨hnd, hrange⟩ := hd
  cases h : get lib name with
  | none =>
    have hperm := ids_add_of_absent lib msg name h
    have hlen := length_add_of_absent lib msg name h
    have hnew : (stored_new lib msg).id = (lib.map_.length : Int) + 1 := by
      have : ¬ msg.id > 0 := not_lt.mpr hid
      simp [stored_new, this]
    refine ⟨hperm.nodup_iff.mpr (List.nodup_cons.mpr ⟨?_, hnd⟩), ?_⟩
    · intro hmem
      have := (hrange _ hmem).2
      omega
    · intro i hi
      rw [hlen]
      rcases List.mem_cons.mp (hperm.mem_iff.mp hi) with e | e
      · rw [e, hnew]; push_cast; omega
      · have := hrange i e
        push_cast; omega
  | some old =>
    unfold DenseIds
    rw [ids_add_of_present lib msg name old h, length_add_of_present lib msg name old h]
    exact ⟨hnd, hrange⟩

theorem denseIds_add_all {π : Type} :
    ∀ (calls : List (Message π × String)) (lib : DMPLibrary π),
      (∀ c ∈ calls, c.1.id ≤ 0) → DenseIds lib → DenseIds (add_all lib calls)
  | [], _, _, h => h
  | c :: rest, lib, hc, h =>
    denseIds_add_all rest _ (fun c1 h1 => hc c1 (List.mem_cons_of_mem _ h1))
      (denseIds_add lib c.1 c.2 (hc c (List.mem_cons_self _ _)) h)

/-- C2 (as stated, refuted): two `add` calls with the distinct names "a" and "b" on the
empty cache, the first artifact carrying the positive identifier 2 and the second none,
leave both entries with identifier 2: the stored identifiers are not pairwise distinct. -/
theorem add_ids_not_unique :
    (([((⟨2, 0⟩ : Message Nat), "a"), (⟨0, 1⟩, "b")] : List (Message Nat × String)).map
        Prod.snd).Nodup ∧
      ids (add_all (DMPLibrary.new Nat) [(⟨2, 0⟩, "a"), (⟨0, 1⟩, "b")]).map_ = [2, 2] ∧
      ¬ (ids (add_all (DMPLibrary.new Nat) [(⟨2, 0⟩, "a"), (⟨0, 1⟩, "b")]).map_).Nodup := by
  decide

/-- C2 (amended): for every sequence of `add` calls with pairwise distinct names applied to
the empty cache, every identifier stored afterwards is positive, and an identifier stored
after any initial part of the sequence is still the identifier of that name after the whole
sequence; if moreover no incoming artifact carries a positive identifier, the stored
identifiers are pairwise distinct. -/
theorem add_sequence_ids {π : Type} (calls : List (Message π × String))
    (_hnames : (calls.map Prod.snd).Nodup) :
    (∀ i ∈ ids (add_all (DMPLibrary.new π) calls).map_, (0 : Int) < i) ∧
    (∀ pre post, calls = pre ++ post → ∀ n e, get (add_all (DMPLibrary.new π) pre) n = some e →
      ∃ e1, get (add_all (DMPLibrary.new π) calls) n = some e1 ∧ e1.id = e.id) ∧
    ((∀ c ∈ calls, c.1.id ≤ 0) → (ids (add_all (DMPLibrary.new π) calls).map_).Nodup) := by
  refine ⟨ids_pos_add_all calls _ (by simp [DMPLibrary.new, ids]), ?_, ?_⟩
  · intro pre post hsplit n e h
    rw [hsplit, add_all_append]
    exact id_stable_add_all post _ n e h
  · intro hc
    exact (denseIds_add_all calls _ hc ⟨by simp [DMPLibrary.new, ids],
      by simp [DMPLibrary.new, ids]⟩).1

theorem add_sequence_ids_witness :
    (([((⟨0, 0⟩ : Message Nat), "b"), (⟨-3, 1⟩, "a")] : List (Message Nat × String)).map
        Prod.snd).Nodup ∧
      (ids (add_all (DMPLibrary.new Nat) [(⟨0, 0⟩, "b"), (⟨-3, 1⟩, "a")]).map_).Nodup ∧
      ids (add_all (DMPLibrary.new Nat) [(⟨0, 0⟩, "b"), (⟨-3, 1⟩, "a")]).map_ = [2, 1] :=
  ⟨by decide,
    (add_sequence_ids [((⟨0, 0⟩ : Message Nat), "b"), (⟨-3, 1⟩, "a")] (by decide)).2.2
      (by decide),
    by decide⟩

/-! ### `getName` undoes `getBagFileName` -/

theorem find_last_of_from_none (chars : List Char) :
    ∀ (suf : List Char) (pos last : Nat), (∀ x ∈ suf, x ∉ chars) →
      find_last_of_from chars suf pos last = last
  | [], _, _, _ => rfl
  | c :: cs, pos, last, h => by
    have hc : c ∉ chars := h c (List.mem_cons_self _ _)
    simp only [find_last_of_from, hc, if_false]
    exact find_last_of_from_none chars cs (pos + 1) last
      (fun x hx => h x (List.mem_cons_of_mem _ hx))

theorem find_last_of_from_last (chars : List Char) (c : Char) (suf : List Char)
    (hc : c ∈ chars) (hsuf : ∀ x ∈ suf, x ∉ chars) :
    ∀ (pre : List Char) (pos last : Nat),
      find_last_of_from chars (pre ++ c :: suf) pos last = pos + pre.length
  | [], pos, last => by
    simp only [List.nil_append, find_last_of_from, hc, if_true, List.length_nil, add_zero]
    exact find_last_of_from_none chars suf (pos + 1) pos hsuf
  | p :: pre, pos, last => by
    show find_last_of_from chars (pre ++ c :: suf) (pos + 1) (if p ∈ chars then pos else last)
      = pos + (pre.length + 1)
    rw [find_last_of_from_last chars c suf hc hsuf pre (pos + 1)]
    omega

/-- For a name without a slash, `getName` recovers the name from the path
`root/name.bag` (the path being a `std::string`, its length fits `size_t`). -/
theorem getName_bag (root name : String) (hslash : '/' ∉ name.data)
    (hlen : (root ++ SLASH ++ name ++ BAG_FILE_ENDING).length < SIZE_T) :
    getName (root ++ SLASH ++ name ++ BAG_FILE_ENDING) = name := by
  obtain ⟨r⟩ := root
  obtain ⟨n⟩ := name
  have hdata : ((⟨r⟩ : String) ++ SLASH ++ ⟨n⟩ ++ BAG_FILE_ENDING).data
      = r ++ '/' :: (n ++ ['.', 'b', 'a', 'g']) := by
    simp [String.data_append, SLASH, BAG_FILE_ENDING]
  have hlen1 : r.length + 1 + (n.length + 4) < 18446744073709551616 := by
    have h : ((⟨r⟩ : String) ++ SLASH ++ ⟨n⟩ ++ BAG_FILE_ENDING).data.length < SIZE_T := hlen
    rw [hdata] at h
    simp only [List.length_append, List.length_cons, List.length_nil, SIZE_T] at h
    omega
  have hpos1 : find_last_of ((⟨r⟩ : String) ++ SLASH ++ ⟨n⟩ ++ BAG_FILE_ENDING) SLASH
      = r.length := by
    unfold find_last_of
    rw [hdata]
    have : SLASH.data = ['/'] := rfl
    rw [this, find_last_of_from_last ['/'] '/' (n ++ ['.', 'b', 'a', 'g']) (by simp) ?_ r 0 npos]
    · omega
    · intro x hx
      intro hx1
      rw [List.mem_singleton.mp hx1] at hx
      rcases List.mem_append.mp hx with h | h
      · exact hslash h
      · exact absurd h (by decide)
  have hsub : substr ((⟨r⟩ : String) ++ SLASH ++ ⟨n⟩ ++ BAG_FILE_ENDING) (r.length + 1)
      (n.length + 4) = ⟨n ++ ['.', 'b', 'a', 'g']⟩ := by
    unfold substr
    rw [hdata]
    have h1 : (r ++ '/' :: (n ++ ['.', 'b', 'a', 'g'])) = (r ++ ['/']) ++ (n ++ ['.', 'b', 'a', 'g']) := by
      simp
    rw [h1, List.drop_left' (by simp), List.take_of_length_le (by simp)]
  have hpos2 : find_last_of (⟨n ++ ['.', 'b', 'a', 'g']⟩ : String) BAG_FILE_ENDING
      = n.length + 3 := by
    unfold find_last_of
    have h1 : (⟨n ++ ['.', 'b', 'a', 'g']⟩ : String).data = (n ++ ['.', 'b', 'a']) ++ 'g' :: [] := by
      simp
    have : BAG_FILE_ENDING.data = ['.', 'b', 'a', 'g'] := rfl
    rw [h1, this, find_last_of_from_last ['.', 'b', 'a', 'g'] 'g' [] (by decide) (by simp)
      (n ++ ['.', 'b', 'a']) 0 npos]
    simp
  have hS : SLASH.length = 1 := rfl
  have hB : BAG_FILE_ENDING.length = 4 := rfl
  have hflen : ((⟨r⟩ : String) ++ SLASH ++ ⟨n⟩ ++ BAG_FILE_ENDING).length
      = r.length + 1 + (n.length + 4) := by
    show ((⟨r⟩ : String) ++ SLASH ++ ⟨n⟩ ++ BAG_FILE_ENDING).data.length = _
    rw [hdata]
    simp only [List.length_append, List.length_cons, List.length_nil]
    omega
  have hnpos : r.length ≠ npos := by
    simp only [npos, SIZE_T]; omega
  have hsp : (r.length + 1) % SIZE_T = r.length + 1 := by
    simp only [SIZE_T]; omega
  have hl : (r.length + 1 + (n.length + 4) + SIZE_T - (r.length + 1)) % SIZE_T
      = n.length + 4 := by
    simp only [SIZE_T]; omega
  have hcount : (n.length + 3 + SIZE_T - 4 + 1) % SIZE_T = n.length := by
    simp only [SIZE_T]; omega
  simp only [getName, hpos1, hnpos, ne_eq, not_false_eq_true, if_true, hS, hsp, hflen, hl, hsub,
    hpos2, hB, hcount]
  simp [substr]

theorem getName_getBagFileName {π : Type} (lib : DMPLibrary π) (name : String)
    (hslash : '/' ∉ name.data) (hlen : (getBagFileName lib name).length < SIZE_T) :
    getName (getBagFileName lib name) = name :=
  getName_bag lib.absolute_library_directory_path_ name hslash hlen

/-! ### The backing directory: `reload` and `getDMP` -/

theorem readFromBagFile_of_mem {π : Type} :
    ∀ (disk : Disk π) (p : String) (c : Option (Message π)),
      (directory_iterator disk).Nodup → (p, c) ∈ disk → readFromBagFile disk p = c
  | [], _, _, _, h => by simp at h
  | (q, d) :: rest, p, c, hnd, h => by
    simp only [directory_iterator, List.map_cons, List.nodup_cons] at hnd
    rcases List.mem_cons.mp h with e | e
    · cases e
      simp [readFromBagFile]
    · have hq : q ≠ p := by
        rintro rfl
        exact hnd.1 (List.mem_map.mpr ⟨(q, c), e, rfl⟩)
      simp only [readFromBagFile, hq, if_false]
      exact readFromBagFile_of_mem rest p c hnd.2 e

theorem reload_loop_fresh {π : Type} (disk : Disk π) :
    ∀ (fs : List String) (lib : DMPLibrary π),
      (fs.map getName).Nodup →
      (∀ f ∈ fs, ∃ m, readFromBagFile disk f = some m ∧ m.id ≤ 0) →
      (∀ f ∈ fs, get lib (getName f) = none) →
      (reload_loop disk fs lib).1 = .ok () ∧
      (reload_loop disk fs lib).2.map_.length = lib.map_.length + fs.length ∧
      (∀ n, n ∉ fs.map getName → get (reload_loop disk fs lib).2 n = get lib n) ∧
      (∀ (i : Nat) (hi : i < fs.length), ∃ m, readFromBagFile disk fs[i] = some m ∧
        get (reload_loop disk fs lib).2 (getName fs[i])
          = some ⟨(lib.map_.length : Int) + i + 1, m.payload⟩)
  | [], lib, _, _, _ => by
    refine ⟨rfl, rfl, fun _ _ => rfl, fun i hi => ?_⟩
    simp at hi
  | f :: rest, lib, hnd, hread, hfresh => by
    obtain ⟨m, hm, hid⟩ := hread f (List.mem_cons_self _ _)
    have hf : get lib (getName f) = none := hfresh f (List.mem_cons_self _ _)
    simp only [List.map_cons, List.nodup_cons] at hnd
    have hadd := add_of_absent lib m (getName f) hf
    have hnew : stored_new lib m = ⟨(lib.map_.length : Int) + 1, m.payload⟩ := by
      have : ¬ m.id > 0 := not_lt.mpr hid
      simp [stored_new, this]
    have hstep : reload_loop disk (f :: rest) lib
        = reload_loop disk rest (add lib m (getName f)).2.2 := by
      simp [reload_loop, hm, hadd]
    have hlen1 := length_add_of_absent lib m (getName f) hf
    have hget1 : get (add lib m (getName f)).2.2 (getName f)
        = some ⟨(lib.map_.length : Int) + 1, m.payload⟩ := by
      rw [hadd, ← hnew]
      exact map_find_insert_self (getName f) _ lib.map_ hf
    have hfresh1 : ∀ g ∈ rest, get (add lib m (getName f)).2.2 (getName g) = none := by
      intro g hg
      have hne : getName g ≠ getName f := by
        intro e
        exact hnd.1 (e ▸ List.mem_map_of_mem getName hg)
      rw [get_add_other lib m (getName f) (getName g) hne]
      exact hfresh g (List.mem_cons_of_mem _ hg)
    obtain ⟨ih1, ih2, ih3, ih4⟩ := reload_loop_fresh disk rest (add lib m (getName f)).2.2 hnd.2
      (fun g hg => hread g (List.mem_cons_of_mem _ hg)) hfresh1
    rw [hstep]
    refine ⟨ih1, ?_, ?_, ?_⟩
    · rw [ih2, hlen1, List.length_cons]; omega
    · intro n hn
      simp only [List.map_cons, List.mem_cons, not_or] at hn
      rw [ih3 n hn.2, get_add_other lib m (getName f) n hn.1]
    · intro i hi
      cases i with
      | zero =>
        refine ⟨m, hm, ?_⟩
        simp only [List.getElem_cons_zero]
        rw [ih3 (getName f) hnd.1, hget1]
        simp
      | succ i =>
        have hi1 : i < rest.length := by simpa using hi
        obtain ⟨m1, hm1, hg1⟩ := ih4 i hi1
        refine ⟨m1, by simpa using hm1, ?_⟩
        simp only [List.getElem_cons_succ]
        rw [hg1, hlen1]
        congr 2
        push_cast
        ring

theorem std_sort_perm (l : List String) : (std_sort l).Perm l :=
  List.perm_insertionSort _ l

/-- C4: for an empty cache and a backing directory whose files are all readable files
`root/<name>.bag` (names without a slash; paths of a length that fits `size_t`) holding
artifacts without a positive identifier, `reload` succeeds, the cache ends with exactly as
many entries as there are files, the sorted file names are strictly ascending in the
lexicographic order, and the artifact read from the file at position `i` (0-based) of the
sorted file names is stored, under the name of that file, with identifier `i + 1`. -/
theorem reload_assigns_ids {π : Type} (lib : DMPLibrary π) (disk : Disk π)
    (hempty : lib.map_ = [])
    (hnodup : (directory_iterator disk).Nodup)
    (hfiles : ∀ p c, (p, c) ∈ disk → ∃ name msg, '/' ∉ name.data ∧
      p = getBagFileName lib name ∧ p.length < SIZE_T ∧ c = some msg ∧ msg.id ≤ 0) :
    (reload lib disk).1 = .ok () ∧
    (reload lib disk).2.map_.length = disk.length ∧
    (std_sort (directory_iterator disk)).Pairwise (fun a b => less a b = true) ∧
    ∀ (i : Nat) (hi : i < (std_sort (directory_iterator disk)).length),
      ∃ msg, readFromBagFile disk (std_sort (directory_iterator disk))[i] = some msg ∧
        get (reload lib disk).2 (getName (std_sort (directory_iterator disk))[i])
          = some ⟨(i : Int) + 1, msg.payload⟩ := by
  have hperm := std_sort_perm (directory_iterator disk)
  have hmem : ∀ f ∈ std_sort (directory_iterator disk), ∃ name msg, '/' ∉ name.data ∧
      f = getBagFileName lib name ∧ f.length < SIZE_T ∧
      readFromBagFile disk f = some msg ∧ msg.id ≤ 0 := by
    intro f hf
    obtain ⟨⟨p, c⟩, hpc, rfl⟩ := List.mem_map.mp (hperm.mem_iff.mp hf)
    obtain ⟨name, msg, h1, h2, h3, h4, h5⟩ := hfiles p c hpc
    exact ⟨name, msg, h1, h2, h3, by rw [readFromBagFile_of_mem disk p c hnodup hpc, h4], h5⟩
  have hname : ∀ f ∈ std_sort (directory_iterator disk),
      getBagFileName lib (getName f) = f := by
    intro f hf
    obtain ⟨name, msg, h1, h2, h3, -⟩ := hmem f hf
    rw [h2] at h3 ⊢
    rw [getName_getBagFileName lib name h1 h3]
  have hnd : ((std_sort (directory_iterator disk)).map getName).Nodup := by
    refine List.Nodup.map_on ?_ (hperm.nodup_iff.mpr hnodup)
    intro x hx y hy hxy
    rw [← hname x hx, ← hname y hy, hxy]
  obtain ⟨h1, h2, -, h4⟩ := reload_loop_fresh disk (std_sort (directory_iterator disk)) lib hnd
    (fun f hf => by
      obtain ⟨_, msg, _, _, _, h, hid⟩ := hmem f hf
      exact ⟨msg, h, hid⟩)
    (fun f _ => by simp [get, hempty, map_find])
  refine ⟨h1, ?_, std_sort_strict _ hnodup, ?_⟩
  · show (reload_loop disk (std_sort (directory_iterator disk)) lib).2.map_.length = _
    rw [h2, hempty, hperm.length_eq]
    simp [directory_iterator]
  · intro i hi
    obtain ⟨msg, hm, hg⟩ := h4 i hi
    refine ⟨msg, hm, ?_⟩
    show get (reload_loop disk (std_sort (directory_iterator disk)) lib).2 _ = _
    rw [hg, hempty]
    simp

theorem reload_assigns_ids_witness :
    std_sort (directory_iterator exampleDisk)
        = ["/lib/grasp.bag", "/lib/place.bag", "/lib/reach.bag"] ∧
      (reload exampleLibrary exampleDisk).1 = .ok () ∧
      (reload exampleLibrary exampleDisk).2.map_.length = 3 ∧
      (reload exampleLibrary exampleDisk).2.map_
        = [("grasp", ⟨1, 1⟩), ("place", ⟨2, 3⟩), ("reach", ⟨3, 2⟩)] :=
  have h := reload_assigns_ids exampleLibrary exampleDisk rfl (by decide) (by
    intro p c hpc
    simp only [exampleDisk, List.mem_cons, Prod.mk.injEq, List.mem_nil_iff, or_false] at hpc
    rcases hpc with ⟨rfl, rfl⟩ | ⟨rfl, rfl⟩ | ⟨rfl, rfl⟩
    · exact ⟨"reach", ⟨0, 2⟩, by decide, by decide, by decide, rfl, by decide⟩
    · exact ⟨"grasp", ⟨0, 1⟩, by decide, by decide, by decide, rfl, by decide⟩
    · exact ⟨"place", ⟨-1, 3⟩, by decide, by decide, by decide, rfl, by decide⟩)
  ⟨by decide, h.1, h.2.1, by decide⟩

theorem getDMP_scan_eq {π : Type} (lib : DMPLibrary π) (disk : Disk π)
    (name filename : String) :
    ∀ ps : List String, getDMP_scan lib disk name filename ps =
      if filename ∈ ps then
        match readFromBagFile disk filename with
        | none => (.error .readFailed, lib)
        | some dmp_message => (.ok (add lib dmp_message name).2.1, (add lib dmp_message name).2.2)
      else (.error .notFound, lib)
  | [] => by simp [getDMP_scan]
  | p :: rest => by
    by_cases hp : filename = p
    · simp [getDMP_scan, hp]
    · simp [getDMP_scan, hp, getDMP_scan_eq lib disk name filename rest]

/-- C5: for a name absent from the cache whose file `root/name.bag` is in the backing
directory and readable, `getDMP(name)` succeeds and returns the payload stored on disk (with
the identifier `add` gives it); the cache then holds the name, and a subsequent `get(name)`
returns the very message `getDMP` returned. -/
theorem getDMP_loads_from_disk {π : Type} (lib : DMPLibrary π) (disk : Disk π)
    (name : String) (onDisk : Message π) (hmiss : get lib name = none)
    (hfile : getBagFileName lib name ∈ directory_iterator disk)
    (hread : readFromBagFile disk (getBagFileName lib name) = some onDisk) :
    ∃ returned, (getDMP lib disk name).1 = .ok returned ∧
      returned.payload = onDisk.payload ∧
      returned.id = (if onDisk.id > 0 then onDisk.id else lib.map_.length + 1) ∧
      get (getDMP lib disk name).2 name = some returned := by
  have hget : getDMP lib disk name
      = ((.ok (add lib onDisk name).2.1 : Except Failure (Message π)),
          (add lib onDisk name).2.2) := by
    simp [getDMP, hmiss, getDMP_scan_eq, hfile, hread]
  rw [hget, add_of_absent lib onDisk name hmiss]
  exact ⟨stored_new lib onDisk, rfl, rfl, rfl, map_find_insert_self name _ lib.map_ hmiss⟩

theorem getDMP_loads_from_disk_witness :
    get exampleLibrary "grasp" = none ∧
      (getDMP exampleLibrary exampleDisk "grasp").1 = .ok ⟨1, 1⟩ ∧
      get (getDMP exampleLibrary exampleDisk "grasp").2 "grasp" = some ⟨1, 1⟩ ∧
      ∃ returned, (getDMP exampleLibrary exampleDisk "grasp").1 = .ok returned ∧
        returned.payload = 1 ∧
        returned.id = (if (0 : Int) > 0 then 0 else (exampleLibrary.map_.length : Int) + 1) ∧
        get (getDMP exampleLibrary exampleDisk "grasp").2 "grasp" = some returned :=
  ⟨by decide, by decide, by decide,
    getDMP_loads_from_disk exampleLibrary exampleDisk "grasp" ⟨0, 1⟩ (by decide) (by decide)
      (by decide)⟩

/-- C6: for a name absent from the cache with no file `root/name.bag` in the backing
directory, `getDMP(name)` fails at the "could not find" exit (NotFound) and the library
after the call is the library before it. -/
theorem getDMP_not_found {π : Type} (lib : DMPLibrary π) (disk : Disk π) (name : String)
    (hmiss : get lib name = none)
    (hnofile : getBagFileName lib name ∉ directory_iterator disk) :
    getDMP lib disk name = (.error .notFound, lib) := by
  simp [getDMP, hmiss, getDMP_scan_eq, hnofile]

theorem getDMP_not_found_witness :
    get exampleLibrary "pour" = none ∧
      getBagFileName exampleLibrary "pour" ∉ directory_iterator exampleDisk ∧
      getDMP exampleLibrary exampleDisk "pour" = (.error .notFound, exampleLibrary) :=
  ⟨by decide, by decide, getDMP_not_found exampleLibrary exampleDisk "pour" (by decide)
    (by decide)⟩

/-! ### End-to-end scenario -/

theorem bag_path_ne (root a b : String) (hab : a ≠ b) :
    root ++ SLASH ++ a ++ BAG_FILE_ENDING ≠ root ++ SLASH ++ b ++ BAG_FILE_ENDING := by
  intro h
  have hd := congrArg String.data h
  simp only [String.data_append, List.append_assoc, List.append_cancel_left_eq,
    List.append_cancel_right_eq] at hd
  exact hab (String.ext hd)

/-- C7: end-to-end scenario on an initially empty store.  With payloads that carry no
positive identifier, `addDMP(payload_A, "grasp")` assigns id 1, `addDMP(payload_B, "reach")`
assigns id 2, `addDMP(payload_A2, "grasp")` keeps id 1 and replaces the payload (whatever
identifier `payload_A2` came with), each call writing the artifact with its identifier to
`root/name.bag`; a fresh library initialised on the same root then holds exactly `grasp`
with id 1 (payload `payload_A2`) and `reach` with id 2. -/
theorem end_to_end_scenario {π : Type} (versionString data_directory_name : String)
    (payload_A payload_B payload_A2 : π) (ia ib ia2 : Int)
    (hia : ia ≤ 0) (hib : ib ≤ 0)
    (hlen : (data_directory_name ++ versionString).length + 10 < SIZE_T) :
    ∃ lib0 lib1 lib2 lib3 disk1 disk2 disk3,
      initializeLibrary (DMPLibrary.new π) versionString data_directory_name true []
        = (.ok (), lib0) ∧
      addDMP lib0 [] ⟨ia, payload_A⟩ "grasp" = (.ok ⟨1, payload_A⟩, lib1, disk1) ∧
      addDMP lib1 disk1 ⟨ib, payload_B⟩ "reach" = (.ok ⟨2, payload_B⟩, lib2, disk2) ∧
      addDMP lib2 disk2 ⟨ia2, payload_A2⟩ "grasp" = (.ok ⟨1, payload_A2⟩, lib3, disk3) ∧
      lib3.map_ = [("grasp", ⟨1, payload_A2⟩), ("reach", ⟨2, payload_B⟩)] ∧
      disk3 = [(getBagFileName lib0 "grasp", some ⟨1, payload_A2⟩),
        (getBagFileName lib0 "reach", some ⟨2, payload_B⟩)] ∧
      initializeLibrary (DMPLibrary.new π) versionString data_directory_name true disk3
        = (.ok (), ⟨true, [("grasp", ⟨1, payload_A2⟩), ("reach", ⟨2, payload_B⟩)],
            data_directory_name ++ versionString⟩) := by
  have hnia : ¬ ia > 0 := not_lt.mpr hia
  have hnib : ¬ ib > 0 := not_lt.mpr hib
  have hgr : ¬ ("grasp" : String) = "reach" := by decide
  have hrg : ¬ ("reach" : String) = "grasp" := by decide
  have hge : ("grasp" : String).isEmpty = false := by decide
  have hre : ("reach" : String).isEmpty = false := by decide
  have hl1 : less "reach" "grasp" = false := by decide
  have hl2 : less "grasp" "reach" = true := by decide
  have hpne := bag_path_ne (data_directory_name ++ versionString) "grasp" "reach" hgr
  have hpne2 := hpne.symm
  have hng : getName (data_directory_name ++ versionString ++ SLASH ++ "grasp"
      ++ BAG_FILE_ENDING) = "grasp" := by
    refine getName_bag _ "grasp" (by decide) ?_
    have h := hlen
    simp only [String.length_append] at h ⊢
    have e1 : SLASH.length = 1 := rfl
    have e2 : BAG_FILE_ENDING.length = 4 := rfl
    have e3 : ("grasp" : String).length = 5 := rfl
    omega
  have hnr : getName (data_directory_name ++ versionString ++ SLASH ++ "reach"
      ++ BAG_FILE_ENDING) = "reach" := by
    refine getName_bag _ "reach" (by decide) ?_
    have h := hlen
    simp only [String.length_append] at h ⊢
    have e1 : SLASH.length = 1 := rfl
    have e2 : BAG_FILE_ENDING.length = 4 := rfl
    have e3 : ("reach" : String).length = 5 := rfl
    omega
  refine ⟨⟨true, [], data_directory_name ++ versionString⟩,
    ⟨true, [("grasp", ⟨1, payload_A⟩)], data_directory_name ++ versionString⟩,
    ⟨true, [("grasp", ⟨1, payload_A⟩), ("reach", ⟨2, payload_B⟩)],
      data_directory_name ++ versionString⟩,
    ⟨true, [("grasp", ⟨1, payload_A2⟩), ("reach", ⟨2, payload_B⟩)],
      data_directory_name ++ versionString⟩,
    [(data_directory_name ++ versionString ++ SLASH ++ "grasp" ++ BAG_FILE_ENDING,
      some ⟨1, payload_A⟩)],
    [(data_directory_name ++ versionString ++ SLASH ++ "grasp" ++ BAG_FILE_ENDING,
        some ⟨1, payload_A⟩),
      (data_directory_name ++ versionString ++ SLASH ++ "reach" ++ BAG_FILE_ENDING,
        some ⟨2, payload_B⟩)],
    [(data_directory_name ++ versionString ++ SLASH ++ "grasp" ++ BAG_FILE_ENDING,
        some ⟨1, payload_A2⟩),
      (data_directory_name ++ versionString ++ SLASH ++ "reach" ++ BAG_FILE_ENDING,
        some ⟨2, payload_B⟩)], ?_, ?_, ?_, ?_, rfl, rfl, ?_⟩
  · simp [initializeLibrary, reload, directory_iterator, std_sort, reload_loop,
      DMPLibrary.new, Except.toBool]
  · simp [addDMP, add, add_loop, map_insert, writeToDisc, getBagFileName, hnia, hge]
  · simp [addDMP, add, add_loop, map_insert, writeToDisc, getBagFileName, hnib, hgr, hl1, hl2,
      hpne, hre]
  · simp [addDMP, add, add_loop, writeToDisc, getBagFileName, hge]
  · have hsort : std_sort
          [data_directory_name ++ versionString ++ SLASH ++ "grasp" ++ BAG_FILE_ENDING,
            data_directory_name ++ versionString ++ SLASH ++ "reach" ++ BAG_FILE_ENDING]
        = [data_directory_name ++ versionString ++ SLASH ++ "grasp" ++ BAG_FILE_ENDING,
            data_directory_name ++ versionString ++ SLASH ++ "reach" ++ BAG_FILE_ENDING] ∨
        std_sort
          [data_directory_name ++ versionString ++ SLASH ++ "grasp" ++ BAG_FILE_ENDING,
            data_directory_name ++ versionString ++ SLASH ++ "reach" ++ BAG_FILE_ENDING]
        = [data_directory_name ++ versionString ++ SLASH ++ "reach" ++ BAG_FILE_ENDING,
            data_directory_name ++ versionString ++ SLASH ++ "grasp" ++ BAG_FILE_ENDING] := by
      simp only [std_sort, List.insertionSort, List.orderedInsert]
      by_cases h : less (data_directory_name ++ versionString ++ SLASH ++ "reach"
          ++ BAG_FILE_ENDING) (data_directory_name ++ versionString ++ SLASH ++ "grasp"
          ++ BAG_FILE_ENDING) = false
      · left; simp [h]
      · right; simp [h]
    simp only [initializeLibrary, reload, directory_iterator, DMPLibrary.new, List.map_cons,
      List.map_nil]
    rcases hsort with h | h
    · rw [h]
      simp [reload_loop, readFromBagFile, hpne, hng, hnr, add, add_loop, map_insert, hgr, hrg,
        hl1, hl2, Except.toBool]
    · rw [h]
      simp [reload_loop, readFromBagFile, hpne, hng, hnr, add, add_loop, map_insert, hgr, hrg,
        hl1, hl2, Except.toBool]

theorem end_to_end_scenario_witness :
    (("/lib/" : String) ++ "v1").length + 10 < SIZE_T ∧
    (∃ lib0 lib1 lib2 lib3 disk1 disk2 disk3,
      initializeLibrary (DMPLibrary.new Nat) "v1" "/lib/" true [] = (.ok (), lib0) ∧
      addDMP lib0 [] ⟨0, 10⟩ "grasp" = (.ok ⟨1, 10⟩, lib1, disk1) ∧
      addDMP lib1 disk1 ⟨0, 20⟩ "reach" = (.ok ⟨2, 20⟩, lib2, disk2) ∧
      addDMP lib2 disk2 ⟨0, 30⟩ "grasp" = (.ok ⟨1, 30⟩, lib3, disk3) ∧
      lib3.map_ = [("grasp", ⟨1, 30⟩), ("reach", ⟨2, 20⟩)] ∧
      disk3 = [(getBagFileName lib0 "grasp", some ⟨1, 30⟩),
        (getBagFileName lib0 "reach", some ⟨2, 20⟩)] ∧
      initializeLibrary (DMPLibrary.new Nat) "v1" "/lib/" true disk3
        = (.ok (), ⟨true, [("grasp", ⟨1, 30⟩), ("reach", ⟨2, 20⟩)], "/lib/" ++ "v1"⟩)) ∧
    initializeLibrary (DMPLibrary.new Nat) "v1" "/lib/" true
        [("/lib/v1/grasp.bag", some ⟨1, 30⟩), ("/lib/v1/reach.bag", some ⟨2, 20⟩)]
      = (.ok (), ⟨true, [("grasp", ⟨1, 30⟩), ("reach", ⟨2, 20⟩)], "/lib/v1"⟩) :=
  ⟨by decide,
    end_to_end_scenario "v1" "/lib/" 10 20 30 0 0 0 (by decide) (by decide) (by decide),
    by decide⟩

/-! ### `reload` stops at the first file that cannot be read -/

theorem add_fst {π : Type} (lib : DMPLibrary π) (msg : Message π) (name : String) :
    (add lib msg name).1 = true := by
  simp only [add]
  by_cases hf : (add_loop name lib.map_ msg 1).2.2.1 = true
  · simp [hf]
  · simp [hf]

theorem reload_loop_of_readable {π : Type} (disk : Disk π) :
    ∀ (fs : List String) (lib : DMPLibrary π),
      (∀ f ∈ fs, readFromBagFile disk f ≠ none) →
      reload_loop disk fs lib = (.ok (), add_all lib (reload_calls disk fs))
  | [], _, _ => rfl
  | f :: rest, lib, h => by
    cases hf : readFromBagFile disk f with
    | none => exact absurd hf (h f (List.mem_cons_self _ _))
    | some m =>
      have ih := reload_loop_of_readable disk rest (add lib m (getName f)).2.2
        (fun g hg => h g (List.mem_cons_of_mem _ hg))
      simp [reload_loop, hf, add_fst, ih, reload_calls, add_all]

theorem reload_loop_of_unreadable {π : Type} (disk : Disk π) (f : String)
    (post : List String) (hf : readFromBagFile disk f = none) :
    ∀ (pre : List String) (lib : DMPLibrary π),
      (∀ g ∈ pre, readFromBagFile disk g ≠ none) →
      reload_loop disk (pre ++ f :: post) lib
        = (.error .readFailed, add_all lib (reload_calls disk pre))
  | [], lib, _ => by simp [reload_loop, hf, reload_calls, add_all]
  | g :: pre, lib, h => by
    cases hg : readFromBagFile disk g with
    | none => exact absurd hg (h g (List.mem_cons_self _ _))
    | some m =>
      have ih := reload_loop_of_unreadable disk f post hf pre (add lib m (getName g)).2.2
        (fun g1 hg1 => h g1 (List.mem_cons_of_mem _ hg1))
      simp [reload_loop, hg, add_fst, ih, reload_calls, add_all]

theorem reload_calls_of_readable {π : Type} (disk : Disk π) :
    ∀ (fs : List String), (∀ f ∈ fs, readFromBagFile disk f ≠ none) →
      (reload_calls disk fs).length = fs.length ∧
      ∀ (i : Nat) (hi : i < fs.length), ∃ m, readFromBagFile disk fs[i] = some m ∧
        (reload_calls disk fs)[i]? = some (m, getName fs[i])
  | [], _ => ⟨rfl, fun i hi => by simp at hi⟩
  | f :: rest, h => by
    cases hf : readFromBagFile disk f with
    | none => exact absurd hf (h f (List.mem_cons_self _ _))
    | some m =>
      obtain ⟨ih1, ih2⟩ := reload_calls_of_readable disk rest
        (fun g hg => h g (List.mem_cons_of_mem _ hg))
      have hcons : reload_calls disk (f :: rest) = (m, getName f) :: reload_calls disk rest := by
        simp [reload_calls, hf]
      rw [hcons]
      refine ⟨by simp [ih1], ?_⟩
      intro i hi
      cases i with
      | zero => exact ⟨m, hf, by simp⟩
      | succ i =>
        obtain ⟨m1, hm1, hc1⟩ := ih2 i (by simpa using hi)
        exact ⟨m1, by simpa using hm1, by simpa using hc1⟩

/-- C12: if, in ascending sorted file-name order, the file at position `j` is the first one
that cannot be read, `reload` returns failure (at the "problems reading" exit) and the
library it leaves is the library before the call with exactly the artifacts of the `j`
files sorted before it added by `add`, in that order, each under the name derived from its
file name: nothing is rolled back, and nothing from the file at position `j` or a later
file has been added. -/
theorem reload_stops_at_first_unreadable {π : Type} (lib : DMPLibrary π) (disk : Disk π)
    (j : Nat) (hj : j < (std_sort (directory_iterator disk)).length)
    (hbefore : ∀ (i : Nat) (hi : i < j),
      readFromBagFile disk (std_sort (directory_iterator disk))[i] ≠ none)
    (hbad : readFromBagFile disk (std_sort (directory_iterator disk))[j] = none) :
    (reload lib disk).1 = .error .readFailed ∧
    (reload lib disk).2
      = add_all lib (reload_calls disk ((std_sort (directory_iterator disk)).take j)) ∧
    (reload_calls disk ((std_sort (directory_iterator disk)).take j)).length = j ∧
    ∀ (i : Nat) (hi : i < j), ∃ m,
      readFromBagFile disk (std_sort (directory_iterator disk))[i] = some m ∧
      (reload_calls disk ((std_sort (directory_iterator disk)).take j))[i]?
        = some (m, getName (std_sort (directory_iterator disk))[i]) := by
  have hsplit : std_sort (directory_iterator disk)
      = (std_sort (directory_iterator disk)).take j
        ++ (std_sort (directory_iterator disk))[j]
          :: (std_sort (directory_iterator disk)).drop (j + 1) := by
    rw [List.getElem_cons_drop _ j hj, List.take_append_drop]
  have hpre : ∀ g ∈ (std_sort (directory_iterator disk)).take j,
      readFromBagFile disk g ≠ none := by
    intro g hg
    obtain ⟨i, hi, rfl⟩ := List.getElem_of_mem hg
    have hij : i < j := by
      have := hi
      simp only [List.length_take] at this
      omega
    rw [List.getElem_take]
    exact hbefore i hij
  have hrun : reload lib disk
      = (.error .readFailed, add_all lib
          (reload_calls disk ((std_sort (directory_iterator disk)).take j))) := by
    show reload_loop disk (std_sort (directory_iterator disk)) lib = _
    rw [hsplit]
    rw [reload_loop_of_unreadable disk _ _ hbad _ lib hpre]
    rw [← hsplit]
  obtain ⟨hlen, hcalls⟩ := reload_calls_of_readable disk _ hpre
  have hlt : ((std_sort (directory_iterator disk)).take j).length = j := by
    rw [List.length_take]; omega
  refine ⟨by rw [hrun], by rw [hrun], by rw [hlen, hlt], ?_⟩
  intro i hi
  obtain ⟨m, hm, hc⟩ := hcalls i (by rw [hlt]; exact hi)
  rw [List.getElem_take] at hm hc
  exact ⟨m, hm, hc⟩

theorem reload_stops_at_first_unreadable_witness :
    std_sort (directory_iterator exampleBrokenDisk)
        = ["/lib/grasp.bag", "/lib/place.bag", "/lib/reach.bag"] ∧
      (reload exampleLibrary exampleBrokenDisk).1 = .error .readFailed ∧
      (reload exampleLibrary exampleBrokenDisk).2
        = add_all exampleLibrary (reload_calls exampleBrokenDisk
            ((std_sort (directory_iterator exampleBrokenDisk)).take 1)) ∧
      (reload exampleLibrary exampleBrokenDisk).2.map_ = [("grasp", ⟨1, 1⟩)] :=
  have h := reload_stops_at_first_unreadable exampleLibrary exampleBrokenDisk 1 (by decide)
    (by
      intro i hi
      have hi0 : i = 0 := by omega
      subst hi0
      have hs : std_sort (directory_iterator exampleBrokenDisk)
          = ["/lib/grasp.bag", "/lib/place.bag", "/lib/reach.bag"] := by decide
      simp only [hs, List.getElem_cons_zero]
      decide)
    (by decide)
  ⟨by decide, h.1, h.2.1, by decide⟩

/-! ### Name derivation undoes path construction -/

/-- C14: for every library (whatever its directory path) and every artifact name without a
slash, `getName(getBagFileName(name)) = name`: from `root/name.bag`, `getName` strips the
directory part and the ending `.bag`, also when the name contains '.', 'b', 'a' or 'g' or is
empty.  (The path is a `std::string`, so its length fits `size_t`.) -/
theorem getName_undoes_getBagFileName {π : Type} (lib : DMPLibrary π) (name : String)
    (hslash : '/' ∉ name.data) (hlen : (getBagFileName lib name).length < SIZE_T) :
    getName (getBagFileName lib name) = name :=
  getName_bag lib.absolute_library_directory_path_ name hslash hlen

theorem getName_undoes_getBagFileName_witness :
    '/' ∉ ("bag.a.g.bag" : String).data ∧
      (getBagFileName exampleLibrary "bag.a.g.bag").length < SIZE_T ∧
      getName (getBagFileName exampleLibrary "bag.a.g.bag") = "bag.a.g.bag" ∧
      getName (getBagFileName exampleLibrary "") = "" ∧
      getBagFileName exampleLibrary "bag.a.g.bag" = "/lib/bag.a.g.bag.bag" :=
  ⟨by decide, by decide,
    getName_undoes_getBagFileName exampleLibrary "bag.a.g.bag" (by decide) (by decide),
    by decide, by decide⟩

end skill_library

namespace task_recorder2_io

section Recorder

variable {W T : Type} (U : Collaborators W T)

/-! ### The CLMC export: duration and sampling frequency -/

theorem clmc_file_name_ok (s : TaskRecorderIO) (directory_name : String) (w : W)
    (file_name : String) (s1 : TaskRecorderIO) (w1 : W)
    (h : writeRecordedDataToCLMCFile_file_name U s directory_name w = (.ok file_name, s1, w1)) :
    s.initialized_ = true ∧ s.messages_ ≠ [] ∧ s1.messages_ = s.messages_ := by
  unfold writeRecordedDataToCLMCFile_file_name at h
  by_cases hi : s.initialized_ = true
  · by_cases hm : s.messages_ = []
    · simp [hi, hm] at h
    · refine ⟨hi, hm, ?_⟩
      have hm1 : s.messages_.isEmpty = false := by
        cases hs : s.messages_ with
        | nil => exact absurd hs hm
        | cons _ _ => rfl
      simp only [hi, hm1, Bool.not_true, Bool.false_eq_true, if_false] at h
      split at h
      · simp at h
      · split at h
        · simp at h
        · split at h
          · simp at h
          · split at h
            · simp at h
            · simp only [Prod.mk.injEq] at h
              rw [← h.2.1]
  · simp [hi] at h

theorem stamp_at_zero (first : DataSample) (rest : List DataSample) :
    stamp_at (first :: rest) 0 = first.stamp := by
  simp [stamp_at]

theorem stamp_at_last (first last : DataSample) (rest : List DataSample)
    (hlast : (first :: rest).getLast? = some last) :
    stamp_at (first :: rest) ((first :: rest).length - 1) = last.stamp := by
  rw [List.getLast?_eq_getElem?] at hlast
  simp only [stamp_at, hlast]

theorem clmc_file_name_of_steps (s : TaskRecorderIO) (directory_name : String) (w : W)
    (hinit : s.initialized_ = true) (hne : s.messages_ ≠ [])
    (w0 : W) (hdata : U.checkAndCreateDirectories s.data_directory_name_ w = (true, w0))
    (w1 : W)
    (hsub : (directory_name.isEmpty = true ∧ w1 = w0) ∨
      (directory_name.isEmpty = false ∧
        U.checkForDirectory
          (U.getPathNameIncludingTrailingSlash s.absolute_data_directory_path_ ++ directory_name)
          w0 = (true, w1)))
    (k : Int) (w2 : W)
    (htrial : U.getTrialId (subdirectory_path s directory_name) s.description_.trial
      s.prefixed_topic_name_ w1 = (true, k, w2))
    (clmc_file_name : String) (hclmc : U.setCLMCFileName k = some clmc_file_name) :
    writeRecordedDataToCLMCFile_file_name U s directory_name w
      = (.ok (data_directory U s directory_name ++ clmc_file_name),
          { s with description_ := { s.description_ with trial := k } }, w2) := by
  have hm : s.messages_.isEmpty = false := by
    cases hs : s.messages_ with
    | nil => exact absurd hs hne
    | cons _ _ => rfl
  rcases hsub with ⟨he, rfl⟩ | ⟨he, hcheck⟩
  · simp [writeRecordedDataToCLMCFile_file_name, hinit, hm, hdata, he, htrial, hclmc,
      data_directory]
  · simp [writeRecordedDataToCLMCFile_file_name, hinit, hm, hdata, he, hcheck, htrial, hclmc,
      data_directory]

/-- C8: in `writeRecordedDataToCLMCFile` on an initialised session with a non-empty buffer
(first sample `first`, last sample `last`, time stamps exact rationals), when the directory
checks pass, `getTrialId` resolves the trial `k` and `setCLMCFileName` names the file: if
the buffer holds more than one sample and `last - first ≤ 0`, the call ends at the duration
assertion (InvalidState) and neither `trajectory->initialize` nor any later step of the
export takes place; otherwise the call's outcome is that of `trajectory->initialize` called
with the sampling frequency `f`, followed by the rows and the write, where `f` is exactly 1
for a single sample, whatever its time stamp (the duration being forced to 1), and
`n / (last - first)` for `n > 1` samples. -/
theorem clmc_sampling_frequency (s : TaskRecorderIO) (directory_name : String) (w : W)
    (first last : DataSample) (rest : List DataSample)
    (hmsgs : s.messages_ = first :: rest) (hlast : (first :: rest).getLast? = some last)
    (hinit : s.initialized_ = true)
    (path directory : String)
    (hpath : path = if directory_name.isEmpty then s.absolute_data_directory_path_
      else s.absolute_data_directory_path_ ++ "/" ++ directory_name)
    (hdirectory : directory =
      if directory_name.isEmpty then
        U.getPathNameIncludingTrailingSlash s.absolute_data_directory_path_
      else U.appendTrailingSlash
        (U.getPathNameIncludingTrailingSlash s.absolute_data_directory_path_ ++ directory_name))
    (w0 : W) (hdata : U.checkAndCreateDirectories s.data_directory_name_ w = (true, w0))
    (w1 : W)
    (hsub : (directory_name.isEmpty = true ∧ w1 = w0) ∨
      (directory_name.isEmpty = false ∧
        U.checkForDirectory
          (U.getPathNameIncludingTrailingSlash s.absolute_data_directory_path_ ++ directory_name)
          w0 = (true, w1)))
    (k : Int) (w2 : W)
    (htrial : U.getTrialId path s.description_.trial s.prefixed_topic_name_ w1 = (true, k, w2))
    (clmc_file_name : String) (hclmc : U.setCLMCFileName k = some clmc_file_name) :
    (s.messages_.length = 1 → trajectory_duration s.messages_ = 1) ∧
    (1 < s.messages_.length → last.stamp - first.stamp ≤ 0 →
      writeRecordedDataToCLMCFile U s directory_name w
        = (.error .durationNotPositive,
            { s with description_ := { s.description_ with trial := k } }, w2)) ∧
    (∀ f : ℚ,
      (s.messages_.length = 1 ∧ f = 1) ∨
        (1 < s.messages_.length ∧ 0 < last.stamp - first.stamp ∧
          f = (s.messages_.length : ℚ) / (last.stamp - first.stamp)) →
      writeRecordedDataToCLMCFile U s directory_name w =
        match U.trajectory_initialize ("ros_time" :: first.names) f true
            (s.messages_.length : Int) with
        | none =>
          (.error .trajectoryFailed,
            { s with description_ := { s.description_ with trial := k } }, w2)
        | some trajectory =>
          match add_rows U s.messages_ (List.replicate (first.names.length + 1) 0)
              trajectory with
          | none =>
            (.error .trajectoryFailed,
              { s with description_ := { s.description_ with trial := k } }, w2)
          | some trajectory =>
            (if (U.trajectory_writeToCLMCFile trajectory (directory ++ clmc_file_name) true
                  w2).1
              then .ok () else .error .trajectoryFailed,
              { s with description_ := { s.description_ with trial := k } },
              (U.trajectory_writeToCLMCFile trajectory (directory ++ clmc_file_name) true
                w2).2)) := by
  have hne : s.messages_ ≠ [] := by rw [hmsgs]; simp
  have hpath1 : subdirectory_path s directory_name = path := by
    rw [hpath]
    unfold subdirectory_path
    cases directory_name.isEmpty <;> rfl
  have hdir1 : data_directory U s directory_name = directory := by
    rw [hdirectory]
    unfold data_directory
    cases directory_name.isEmpty <;> rfl
  have hstage := clmc_file_name_of_steps U s directory_name w hinit hne w0 hdata w1 hsub k w2
    (by rw [hpath1]; exact htrial) clmc_file_name hclmc
  rw [hdir1] at hstage
  have hfirst : stamp_at s.messages_ 0 = first.stamp := by
    rw [hmsgs]; exact stamp_at_zero first rest
  have hlast1 : stamp_at s.messages_ (s.messages_.length - 1) = last.stamp := by
    rw [hmsgs]; exact stamp_at_last first last rest hlast
  have hexport : ∀ f : ℚ, trajectory_duration s.messages_ > 0 →
      f = (s.messages_.length : ℚ) / trajectory_duration s.messages_ →
      writeRecordedDataToCLMCFile U s directory_name w =
        match U.trajectory_initialize ("ros_time" :: first.names) f true
            (s.messages_.length : Int) with
        | none =>
          (.error .trajectoryFailed,
            { s with description_ := { s.description_ with trial := k } }, w2)
        | some trajectory =>
          match add_rows U s.messages_ (List.replicate (first.names.length + 1) 0)
              trajectory with
          | none =>
            (.error .trajectoryFailed,
              { s with description_ := { s.description_ with trial := k } }, w2)
          | some trajectory =>
            (if (U.trajectory_writeToCLMCFile trajectory (directory ++ clmc_file_name) true
                  w2).1
              then .ok () else .error .trajectoryFailed,
              { s with description_ := { s.description_ with trial := k } },
              (U.trajectory_writeToCLMCFile trajectory (directory ++ clmc_file_name) true
                w2).2) := by
    intro f hpos hf
    subst hf
    simp only [writeRecordedDataToCLMCFile, hstage, hpos, not_true_eq_false, if_false,
      export_trajectory]
    simp only [hmsgs, List.getElem?_cons_zero, List.length_cons]
  refine ⟨?_, ?_, ?_⟩
  · intro hn
    simp [trajectory_duration, hn]
  · intro hn hle
    have hn1 : s.messages_.length ≠ 1 := by omega
    have hd : trajectory_duration s.messages_ = last.stamp - first.stamp := by
      simp [trajectory_duration, hn1, hfirst, hlast1]
    have hnot : ¬ (trajectory_duration s.messages_ > 0) := by rw [hd]; exact not_lt.mpr hle
    simp only [writeRecordedDataToCLMCFile, hstage, hnot, not_false_eq_true, if_true]
  · intro f hf
    rcases hf with ⟨hn, hf⟩ | ⟨hn, hpos, hf⟩
    · have hd : trajectory_duration s.messages_ = 1 := by simp [trajectory_duration, hn]
      refine hexport f (by rw [hd]; norm_num) ?_
      rw [hd, hf, hn]; norm_num
    · have hn1 : s.messages_.length ≠ 1 := by omega
      have hd : trajectory_duration s.messages_ = last.stamp - first.stamp := by
        simp [trajectory_duration, hn1, hfirst, hlast1]
      exact hexport f (by rw [hd]; exact hpos) (by rw [hd, hf])

theorem clmc_sampling_frequency_witness :
    writeRecordedDataToCLMCFile exampleCollaborators
        (exampleSession [⟨0, ["q"], [7]⟩, ⟨1, ["q"], [9]⟩]) "" exampleWorld
      = (.ok (), exampleSession [⟨0, ["q"], [7]⟩, ⟨1, ["q"], [9]⟩],
          { exampleWorld.with_directory "/pkg/data" with
            clmc_files := [("/pkg/data/grasp/d0",
              ⟨["ros_time", "q"], 2, [[0, 7], [1, 9]]⟩)] }) :=
  ((clmc_sampling_frequency exampleCollaborators
      (exampleSession [⟨0, ["q"], [7]⟩, ⟨1, ["q"], [9]⟩]) "" exampleWorld
      ⟨0, ["q"], [7]⟩ ⟨1, ["q"], [9]⟩ [⟨1, ["q"], [9]⟩] rfl rfl rfl
      "/pkg/data/grasp" "/pkg/data/grasp/" (by decide) (by decide)
      (exampleWorld.with_directory "/pkg/data") (by decide)
      (exampleWorld.with_directory "/pkg/data") (Or.inl ⟨by decide, rfl⟩)
      0 (exampleWorld.with_directory "/pkg/data") (by decide) "d0" (by decide)).2.2 2
      (Or.inr ⟨by decide, by norm_num, by norm_num [exampleSession]⟩)).trans (by decide)

/-! ### The initialization guard -/

/-- C9 (as stated, refuted): on a session that has not been initialised, `setDescription`
stops at the initialization assertion, whereas `getAbsFileName`, `createDirectories`,
`readDataSamples` and `getList` carry no such check; with the example collaborators the
first three succeed and `getList` returns the empty list. -/
theorem uninitialized_claim_fails :
    TaskRecorderIO.new.initialized_ = false ∧
      setDescription TaskRecorderIO.new ⟨"grasp", 0⟩
        = (.error .notInitialized, TaskRecorderIO.new) ∧
      getAbsFileName exampleCollaborators TaskRecorderIO.new ⟨"grasp", 0⟩
        = .ok "/grasp/_trial_0.bag" ∧
      (createDirectories exampleCollaborators TaskRecorderIO.new "" exampleWorld).1 = .ok () ∧
      readDataSamples exampleCollaborators TaskRecorderIO.new ⟨"grasp", 0⟩
        { exampleWorld with bag_files := [("/grasp/_trial_0.bag", [])] } = .ok [] ∧
      getList exampleCollaborators TaskRecorderIO.new exampleWorld = .ok [] := by
  decide

/-- C9 (amended): on a session on which `initialize` has not succeeded, `setDescription`,
`getDescription`, `incrementCounterFile`, `writeRecordedData` and
`writeRecordedDataToCLMCFile` end at the initialization assertion (PreconditionFailed) and
leave the session and the world as they were. -/
theorem uninitialized_operations_fail (s : TaskRecorderIO) (h : s.initialized_ = false)
    (description : Description) (directory_name : String) (w : W) :
    setDescription s description = (.error .notInitialized, s) ∧
    getDescription s = .error .notInitialized ∧
    incrementCounterFile U s directory_name w = (.error .notInitialized, s, w) ∧
    writeRecordedData U s directory_name w = (.error .notInitialized, s, w) ∧
    writeRecordedDataToCLMCFile U s directory_name w = (.error .notInitialized, s, w) := by
  simp [setDescription, getDescription, incrementCounterFile, writeRecordedData,
    writeRecordedData_file_name, writeRecordedDataToCLMCFile,
    writeRecordedDataToCLMCFile_file_name, h]

theorem uninitialized_operations_fail_witness :
    TaskRecorderIO.new.initialized_ = false ∧
      (setDescription TaskRecorderIO.new ⟨"grasp", 0⟩
          = (.error .notInitialized, TaskRecorderIO.new) ∧
        getDescription TaskRecorderIO.new = .error .notInitialized ∧
        incrementCounterFile exampleCollaborators TaskRecorderIO.new "raw" exampleWorld
          = (.error .notInitialized, TaskRecorderIO.new, exampleWorld) ∧
        writeRecordedData exampleCollaborators TaskRecorderIO.new "raw" exampleWorld
          = (.error .notInitialized, TaskRecorderIO.new, exampleWorld) ∧
        writeRecordedDataToCLMCFile exampleCollaborators TaskRecorderIO.new "raw" exampleWorld
          = (.error .notInitialized, TaskRecorderIO.new, exampleWorld)) :=
  ⟨rfl, uninitialized_operations_fail exampleCollaborators TaskRecorderIO.new rfl ⟨"grasp", 0⟩
    "raw" exampleWorld⟩

/-! ### `writeRecordedData` and the trial counter -/

theorem writeRecordedData_file_name_spec (counter : W → String → String → Nat)
    (hC : CounterContract U counter) (s : TaskRecorderIO) (hinit : s.initialized_ = true)
    (directory_name : String) (w : W) (path topic : String) :
    counter (writeRecordedData_file_name U s directory_name w).2.2 path topic
        = counter w path topic ∧
    (writeRecordedData_file_name U s directory_name w).2.1.initialized_ = true ∧
    (writeRecordedData_file_name U s directory_name w).2.1.prefixed_topic_name_
        = s.prefixed_topic_name_ ∧
    subdirectory_path (writeRecordedData_file_name U s directory_name w).2.1 directory_name
        = subdirectory_path s directory_name ∧
    (∀ e, (writeRecordedData_file_name U s directory_name w).1 = .error e →
      e = .verifyFailed ∨ e = .directoryCheckFailed ∨ e = .trialIdFailed) ∧
    (∀ file_name, (writeRecordedData_file_name U s directory_name w).1 = .ok file_name →
      file_name = data_directory U s directory_name ++ U.getDataFileName s.prefixed_topic_name_
        (writeRecordedData_file_name U s directory_name w).2.1.description_.trial) := by
  unfold writeRecordedData_file_name
  simp only [hinit, Bool.not_true, Bool.false_eq_true, if_false]
  split
  · simp [hinit, hC.checkAndCreateDirectories]
  · split
    · rename_i heq
      split at heq
      · split at heq
        · simp only [Prod.mk.injEq] at heq
          obtain ⟨h1, h2⟩ := heq
          subst h2
          cases h1
          simp [hinit, hC.checkAndCreateDirectories, hC.checkForDirectory]
        · simp at heq
      · simp at heq
    · rename_i file_name1 w1 heq
      have hw1 : counter w1 path topic = counter w path topic := by
        split at heq
        · split at heq
          · simp at heq
          · simp only [Prod.mk.injEq] at heq
            rw [← heq.2, hC.checkForDirectory, hC.checkAndCreateDirectories]
        · simp only [Prod.mk.injEq] at heq
          rw [← heq.2, hC.checkAndCreateDirectories]
      split
      · simp [hinit, hC.getTrialId, hw1, subdirectory_path]
      · have hname : file_name1 = data_directory U s directory_name := by
          unfold data_directory
          split at heq
          · split at heq
            · simp at heq
            · rename_i hd _
              simp only [Prod.mk.injEq, Except.ok.injEq] at heq
              rw [← heq.1, if_pos hd]
          · rename_i hd
            simp only [Prod.mk.injEq, Except.ok.injEq] at heq
            rw [← heq.1, if_neg hd]
        simp [hinit, hC.getTrialId, hw1, subdirectory_path, hname]

theorem incrementCounterFile_counter (counter : W → String → String → Nat)
    (hC : CounterContract U counter) (s : TaskRecorderIO) (hinit : s.initialized_ = true)
    (directory_name : String) (w : W) :
    counter (incrementCounterFile U s directory_name w).2.2
        (subdirectory_path s directory_name) s.prefixed_topic_name_
      = counter w (subdirectory_path s directory_name) s.prefixed_topic_name_ +
        (if (U.incrementTrialCounterFile (subdirectory_path s directory_name)
            s.prefixed_topic_name_ w).1 then 1 else 0) := by
  unfold incrementCounterFile
  simp only [hinit, Bool.not_true, Bool.false_eq_true, if_false]
  cases hinc : (U.incrementTrialCounterFile (subdirectory_path s directory_name)
      s.prefixed_topic_name_ w).1 with
  | false =>
    simp [hC.increment_fails _ _ _ hinc]
  | true =>
    have h1 := hC.increment_succeeds _ _ _ hinc
    simp only [Bool.not_true, Bool.false_eq_true, if_false, if_true]
    split
    · simp [hC.getTrialId, h1]
    · split
      · simp [hC.getTrialId, h1]
      · simp [hC.getTrialId, h1]

theorem writeRecordedData_file_name_of_steps (s : TaskRecorderIO) (directory_name : String)
    (w : W) (hinit : s.initialized_ = true)
    (w0 : W) (hdata : U.checkAndCreateDirectories s.data_directory_name_ w = (true, w0))
    (w1 : W)
    (hsub : (directory_name.isEmpty = true ∧ w1 = w0) ∨
      (directory_name.isEmpty = false ∧
        U.checkForDirectory
          (U.getPathNameIncludingTrailingSlash s.absolute_data_directory_path_ ++ directory_name)
          w0 = (true, w1)))
    (resolved : Bool) (k : Int) (w2 : W)
    (htrial : U.getTrialId (subdirectory_path s directory_name) s.description_.trial
      s.prefixed_topic_name_ w1 = (resolved, k, w2)) :
    writeRecordedData_file_name U s directory_name w
      = (if resolved then
          .ok (data_directory U s directory_name ++ U.getDataFileName s.prefixed_topic_name_ k)
          else .error .trialIdFailed,
          { s with description_ := { s.description_ with trial := k } }, w2) := by
  rcases hsub with ⟨he, rfl⟩ | ⟨he, hcheck⟩
  · cases resolved <;>
      simp [writeRecordedData_file_name, hinit, hdata, he, htrial, data_directory]
  · cases resolved <;>
      simp [writeRecordedData_file_name, hinit, hdata, he, hcheck, htrial, data_directory]

/-- C10: in `writeRecordedData(directory_name)` on an initialised session whose data
directory check passes, with collaborators that treat the trial counter as the
specification says (`CounterContract`), and for the counter of the call's `(path, topic)`:
if `checkForDirectory` fails for the subdirectory, or `getTrialId` fails, or the Serializer
write fails, the call fails at that step and the counter is unchanged; if `getTrialId`
resolves the trial `k` and the write of the data file named for `(topic, k)` in the
directory succeeds, the counter is still unchanged after the write, the call's result is
the result of `incrementCounterFile` on the session with trial `k`, and the counter ends
one higher when the `incrementTrialCounterFile` of that call succeeded (unchanged when it
failed). -/
theorem writeRecordedData_counter (counter : W → String → String → Nat)
    (hC : CounterContract U counter) (s : TaskRecorderIO) (hinit : s.initialized_ = true)
    (directory_name : String) (w : W) (path directory : String)
    (hpath : path = if directory_name.isEmpty then s.absolute_data_directory_path_
      else s.absolute_data_directory_path_ ++ "/" ++ directory_name)
    (hdirectory : directory =
      if directory_name.isEmpty then
        U.getPathNameIncludingTrailingSlash s.absolute_data_directory_path_
      else U.appendTrailingSlash
        (U.getPathNameIncludingTrailingSlash s.absolute_data_directory_path_ ++ directory_name))
    (w0 : W) (hdata : U.checkAndCreateDirectories s.data_directory_name_ w = (true, w0)) :
    (∀ w1, directory_name.isEmpty = false →
      U.checkForDirectory
        (U.getPathNameIncludingTrailingSlash s.absolute_data_directory_path_ ++ directory_name)
        w0 = (false, w1) →
      writeRecordedData U s directory_name w = (.error .directoryCheckFailed, s, w1) ∧
      counter w1 path s.prefixed_topic_name_ = counter w path s.prefixed_topic_name_) ∧
    (∀ w1,
      ((directory_name.isEmpty = true ∧ w1 = w0) ∨
        (directory_name.isEmpty = false ∧
          U.checkForDirectory
            (U.getPathNameIncludingTrailingSlash s.absolute_data_directory_path_
              ++ directory_name) w0 = (true, w1))) →
      ∀ (k : Int) (w2 : W),
        (U.getTrialId path s.description_.trial s.prefixed_topic_name_ w1 = (false, k, w2) →
          writeRecordedData U s directory_name w
            = (.error .trialIdFailed,
                { s with description_ := { s.description_ with trial := k } }, w2) ∧
          counter w2 path s.prefixed_topic_name_ = counter w path s.prefixed_topic_name_) ∧
        (U.getTrialId path s.description_.trial s.prefixed_topic_name_ w1 = (true, k, w2) →
          ∀ w3 : W,
            (U.writeToBagFileWithTimeStamps s.messages_ s.topic_name_
                (directory ++ U.getDataFileName s.prefixed_topic_name_ k) w2 = (false, w3) →
              writeRecordedData U s directory_name w
                = (.error .writeFailed,
                    { s with description_ := { s.description_ with trial := k } }, w3) ∧
              counter w3 path s.prefixed_topic_name_
                = counter w path s.prefixed_topic_name_) ∧
            (U.writeToBagFileWithTimeStamps s.messages_ s.topic_name_
                (directory ++ U.getDataFileName s.prefixed_topic_name_ k) w2 = (true, w3) →
              writeRecordedData U s directory_name w
                = incrementCounterFile U
                    { s with description_ := { s.description_ with trial := k } }
                    directory_name w3 ∧
              counter w3 path s.prefixed_topic_name_
                = counter w path s.prefixed_topic_name_ ∧
              counter (writeRecordedData U s directory_name w).2.2 path s.prefixed_topic_name_
                = counter w path s.prefixed_topic_name_ +
                  (if (U.incrementTrialCounterFile path s.prefixed_topic_name_ w3).1
                    then 1 else 0)))) := by
  have hpath1 : subdirectory_path s directory_name = path := by
    rw [hpath]
    unfold subdirectory_path
    cases directory_name.isEmpty <;> rfl
  have hdir1 : data_directory U s directory_name = directory := by
    rw [hdirectory]
    unfold data_directory
    cases directory_name.isEmpty <;> rfl
  have hw0 : ∀ p t, counter w0 p t = counter w p t := by
    intro p t
    have := hC.checkAndCreateDirectories s.data_directory_name_ w p t
    rw [hdata] at this
    exact this
  constructor
  · intro w1 he hcheck
    have hw1 : ∀ p t, counter w1 p t = counter w0 p t := by
      intro p t
      have := hC.checkForDirectory
        (U.getPathNameIncludingTrailingSlash s.absolute_data_directory_path_ ++ directory_name)
        w0 p t
      rw [hcheck] at this
      exact this
    refine ⟨?_, by rw [hw1, hw0]⟩
    simp [writeRecordedData, writeRecordedData_file_name, hinit, hdata, he, hcheck]
  · intro w1 hsub k w2
    have hw1 : ∀ p t, counter w1 p t = counter w p t := by
      intro p t
      rcases hsub with ⟨-, rfl⟩ | ⟨-, hcheck⟩
      · exact hw0 p t
      · have := hC.checkForDirectory
          (U.getPathNameIncludingTrailingSlash s.absolute_data_directory_path_
            ++ directory_name) w0 p t
        rw [hcheck] at this
        rw [this, hw0]
    have hw2 : ∀ (resolved : Bool),
        U.getTrialId path s.description_.trial s.prefixed_topic_name_ w1 = (resolved, k, w2) →
        ∀ p t, counter w2 p t = counter w p t := by
      intro resolved htrial p t
      have := hC.getTrialId path s.description_.trial s.prefixed_topic_name_ w1 p t
      rw [htrial] at this
      rw [this, hw1]
    constructor
    · intro htrial
      have hstage := writeRecordedData_file_name_of_steps U s directory_name w hinit w0 hdata
        w1 hsub false k w2 (by rw [hpath1]; exact htrial)
      refine ⟨?_, hw2 false htrial _ _⟩
      simp [writeRecordedData, hstage]
    · intro htrial w3
      have hstage := writeRecordedData_file_name_of_steps U s directory_name w hinit w0 hdata
        w1 hsub true k w2 (by rw [hpath1]; exact htrial)
      rw [hdir1] at hstage
      simp only [if_true] at hstage
      have hw3 : ∀ (written : Bool),
          U.writeToBagFileWithTimeStamps s.messages_ s.topic_name_
            (directory ++ U.getDataFileName s.prefixed_topic_name_ k) w2 = (written, w3) →
          ∀ p t, counter w3 p t = counter w p t := by
        intro written hwrite p t
        have := hC.writeToBagFileWithTimeStamps s.messages_ s.topic_name_
          (directory ++ U.getDataFileName s.prefixed_topic_name_ k) w2 p t
        rw [hwrite] at this
        rw [this, hw2 true htrial]
      constructor
      · intro hwrite
        refine ⟨?_, hw3 false hwrite _ _⟩
        simp [writeRecordedData, hstage, hwrite]
      · intro hwrite
        have hres : writeRecordedData U s directory_name w
            = incrementCounterFile U
                { s with description_ := { s.description_ with trial := k } }
                directory_name w3 := by
          simp [writeRecordedData, hstage, hwrite]
        refine ⟨hres, hw3 true hwrite _ _, ?_⟩
        have hinc := incrementCounterFile_counter U counter hC
          { s with description_ := { s.description_ with trial := k } } hinit directory_name w3
        have hp : subdirectory_path
            { s with description_ := { s.description_ with trial := k } } directory_name
            = path := hpath1
        rw [hp] at hinc
        rw [hres]
        exact hinc.trans (by rw [hw3 true hwrite])

/-! ### `createDirectories` and completeness -/

theorem createDirectories_eq (s : TaskRecorderIO) (directory_name : String) (w : W) :
    createDirectories U s directory_name w =
      match createDirectories_trial_id U s directory_name w with
      | (.error e, s1, w1) => (.error e, s1, w1)
      | (.ok _, s1, w1) =>
        if !U.checkForCompleteness (subdirectory_path s1 directory_name) s1.description_.trial
            s1.prefixed_topic_name_ w1
        then (.error .incomplete, s1, w1)
        else (.ok (), s1, w1) := by
  unfold createDirectories createDirectories_trial_id
  simp only
  split
  · rfl
  · split
    · rfl
    · split
      · rfl
      · split
        · rfl
        · rfl

/-- C11: in `createDirectories(directory_name)`, once the directories exist and the trial
id `k` has been resolved for `(path, topic)` (it is then in `description_.trial`), and with
`checkForCompleteness` as the specification describes it (`CompletenessContract`): the call
fails at the completeness check (InvalidState) whenever the expected file of some trial
below `k` is missing, in particular that of trial `k - 1`; it succeeds when the file of
every trial below `k` is present, and the session then carries `description_.trial = k`. -/
theorem createDirectories_completeness (present : W → String → String → Nat → Bool)
    (hC : CompletenessContract U present) (s : TaskRecorderIO) (directory_name : String)
    (w : W) (s1 : TaskRecorderIO) (w1 : W)
    (hres : createDirectories_trial_id U s directory_name w = (.ok (), s1, w1)) :
    ((∃ i : Nat, (i : Int) < s1.description_.trial ∧
        present w1 (subdirectory_path s1 directory_name) s1.prefixed_topic_name_ i = false) →
      createDirectories U s directory_name w = (.error .incomplete, s1, w1)) ∧
    (0 < s1.description_.trial →
      present w1 (subdirectory_path s1 directory_name) s1.prefixed_topic_name_
        (s1.description_.trial - 1).toNat = false →
      createDirectories U s directory_name w = (.error .incomplete, s1, w1)) ∧
    ((∀ i : Nat, (i : Int) < s1.description_.trial →
        present w1 (subdirectory_path s1 directory_name) s1.prefixed_topic_name_ i = true) →
      createDirectories U s directory_name w = (.ok (), s1, w1) ∧
      (createDirectories U s directory_name w).2.1.description_.trial
        = s1.description_.trial) := by
  have hfail : (∃ i : Nat, (i : Int) < s1.description_.trial ∧
      present w1 (subdirectory_path s1 directory_name) s1.prefixed_topic_name_ i = false) →
      createDirectories U s directory_name w = (.error .incomplete, s1, w1) := by
    rintro ⟨i, hi, hmiss⟩
    have hcheck : U.checkForCompleteness (subdirectory_path s1 directory_name)
        s1.description_.trial s1.prefixed_topic_name_ w1 = false := by
      cases hc : U.checkForCompleteness (subdirectory_path s1 directory_name)
          s1.description_.trial s1.prefixed_topic_name_ w1 with
      | false => rfl
      | true =>
        have := (hC.complete_iff _ _ _ _).mp hc i hi
        rw [hmiss] at this
        exact absurd this (by decide)
    rw [createDirectories_eq, hres]
    simp [hcheck]
  refine ⟨hfail, ?_, ?_⟩
  · intro hk hmiss
    refine hfail ⟨(s1.description_.trial - 1).toNat, ?_, hmiss⟩
    omega
  · intro hall
    have hcheck := (hC.complete_iff (subdirectory_path s1 directory_name)
      s1.description_.trial s1.prefixed_topic_name_ w1).mpr hall
    have hrun : createDirectories U s directory_name w = (.ok (), s1, w1) := by
      rw [createDirectories_eq, hres]
      simp [hcheck]
    exact ⟨hrun, by rw [hrun]⟩

/-! ### The rows of the CLMC export -/

theorem length_fill_values : ∀ (vs : List ℚ) (j : Nat) (data : List ℚ),
    (fill_values vs j data).length = data.length
  | [], _, _ => rfl
  | v :: vs, j, data => by
    simp only [fill_values]
    rw [length_fill_values vs (j + 1), List.length_set]

theorem length_fill_row (msg : DataSample) (data : List ℚ) :
    (fill_row U msg data).length = data.length := by
  unfold fill_row
  rw [length_fill_values, List.length_set]

theorem fill_values_getElem?_outside : ∀ (vs : List ℚ) (j : Nat) (data : List ℚ) (c : Nat),
    c < 1 + j ∨ 1 + j + vs.length ≤ c → (fill_values vs j data)[c]? = data[c]?
  | [], _, _, _, _ => rfl
  | v :: vs, j, data, c, h => by
    simp only [fill_values]
    rw [fill_values_getElem?_outside vs (j + 1) _ c (by
      simp only [List.length_cons] at h; omega)]
    exact List.getElem?_set_ne (by simp only [List.length_cons] at h; omega)

theorem fill_values_getElem?_within : ∀ (vs : List ℚ) (j : Nat) (data : List ℚ) (k : Nat),
    k < vs.length → 1 + j + k < data.length → (fill_values vs j data)[1 + j + k]? = vs[k]?
  | [], _, _, _, h, _ => by simp at h
  | v :: vs, j, data, k, hk, hlen => by
    simp only [fill_values]
    cases k with
    | zero =>
      rw [fill_values_getElem?_outside vs (j + 1) _ (1 + j + 0) (Or.inl (by omega))]
      simpa using List.getElem?_set_self (by simpa using hlen)
    | succ k =>
      have hk1 : k < vs.length := by simpa using hk
      have e : 1 + j + (k + 1) = 1 + (j + 1) + k := by omega
      rw [e, fill_values_getElem?_within vs (j + 1) _ k hk1
        (by rw [List.length_set]; omega)]
      simp

theorem fill_row_getElem?_succ (msg : DataSample) (data : List ℚ) (j : Nat) (x : ℚ)
    (hx : data[1 + j]? = some x) :
    (fill_row U msg data)[1 + j]? = some (match msg.data[j]? with
      | some v => v
      | none => x) := by
  have hlen : 1 + j < data.length := by
    by_contra hnot
    rw [List.getElem?_eq_none (by omega)] at hx
    exact absurd hx (by simp)
  unfold fill_row
  by_cases hj : j < msg.data.length
  · have h := fill_values_getElem?_within msg.data 0 (data.set 0 (U.to_float msg.stamp)) j hj
      (by rw [List.length_set]; omega)
    simp only [Nat.add_zero] at h
    rw [h, List.getElem?_eq_getElem hj]
  · rw [fill_values_getElem?_outside msg.data 0 _ (1 + j) (Or.inr (by omega)),
      List.getElem?_set_ne (by omega), hx, List.getElem?_eq_none (by omega)]

theorem fill_row_full (msg : DataSample) (data : List ℚ)
    (hlen : data.length = 1 + msg.data.length) :
    fill_row U msg data = U.to_float msg.stamp :: msg.data := by
  apply List.ext_getElem?
  intro c
  cases c with
  | zero =>
    unfold fill_row
    rw [fill_values_getElem?_outside msg.data 0 _ 0 (Or.inl (by omega))]
    simpa using List.getElem?_set_self (by omega)
  | succ k =>
    by_cases hk : k < msg.data.length
    · have h := fill_values_getElem?_within msg.data 0 (data.set 0 (U.to_float msg.stamp)) k hk
        (by rw [List.length_set]; omega)
      have e : 1 + 0 + k = k + 1 := by omega
      rw [e] at h
      unfold fill_row
      rw [h]
      simp
    · rw [List.getElem?_eq_none (by rw [length_fill_row]; omega),
        List.getElem?_eq_none (by simp only [List.length_cons]; omega)]

theorem length_buffer_after : ∀ (msgs : List DataSample) (data : List ℚ),
    (buffer_after U msgs data).length = data.length
  | [], _ => rfl
  | msg :: rest, data => by
    show (buffer_after U rest (fill_row U msg data)).length = _
    rw [length_buffer_after rest, length_fill_row]

theorem buffer_after_getElem?_succ (j : Nat) :
    ∀ (msgs : List DataSample) (data : List ℚ) (x : ℚ), data[1 + j]? = some x →
      (buffer_after U msgs data)[1 + j]? = some (msgs.foldl (fun held msg =>
        match msg.data[j]? with
        | some v => v
        | none => held) x)
  | [], _, _, hx => hx
  | msg :: rest, data, x, hx => by
    show (buffer_after U rest (fill_row U msg data))[1 + j]? = _
    exact buffer_after_getElem?_succ j rest _ _ (fill_row_getElem?_succ U msg data j x hx)

theorem buffer_after_append (pre post : List DataSample) (data : List ℚ) :
    buffer_after U (pre ++ post) data = buffer_after U post (buffer_after U pre data) := by
  simp [buffer_after, List.foldl_append]

theorem length_clmc_rows : ∀ (msgs : List DataSample) (data : List ℚ),
    (clmc_rows U msgs data).length = msgs.length
  | [], _ => rfl
  | msg :: rest, data => by
    simp only [clmc_rows, List.length_cons, length_clmc_rows rest]

theorem clmc_rows_getElem? : ∀ (msgs : List DataSample) (data : List ℚ) (i : Nat)
    (hi : i < msgs.length),
    (clmc_rows U msgs data)[i]?
      = some (fill_row U msgs[i] (buffer_after U (msgs.take i) data))
  | [], _, _, hi => by simp at hi
  | msg :: rest, data, 0, _ => by simp [clmc_rows, buffer_after]
  | msg :: rest, data, i + 1, hi => by
    have ih := clmc_rows_getElem? rest (fill_row U msg data) i (by simpa using hi)
    simpa [clmc_rows, buffer_after] using ih

theorem add_rows_eq : ∀ (msgs : List DataSample) (data : List ℚ) (trajectory : T),
    add_rows U msgs data trajectory = add_all_rows U (clmc_rows U msgs data) trajectory
  | [], _, _ => rfl
  | msg :: rest, data, trajectory => by
    simp only [add_rows, clmc_rows, add_all_rows]
    cases U.trajectory_add trajectory (fill_row U msg data) true with
    | none => rfl
    | some t => exact add_rows_eq rest _ t

theorem writeRecordedDataToCLMCFile_of_duration_pos (s : TaskRecorderIO)
    (directory_name : String) (w : W) (file_name : String) (s1 : TaskRecorderIO) (w1 : W)
    (h : writeRecordedDataToCLMCFile_file_name U s directory_name w = (.ok file_name, s1, w1))
    (hpos : trajectory_duration s.messages_ > 0) :
    writeRecordedDataToCLMCFile U s directory_name w
      = export_trajectory U s1
          ((s.messages_.length : ℚ) / trajectory_duration s.messages_) file_name w1 := by
  obtain ⟨-, -, hmsgs⟩ := clmc_file_name_ok U s directory_name w file_name s1 w1 h
  simp only [writeRecordedDataToCLMCFile, h, hmsgs, hpos, not_true_eq_false, if_false]

/-- C13 (amended): for every buffer that `writeRecordedDataToCLMCFile` accepts, the buffer
is not empty, the export is initialised with the variable names `ros_time` followed by the
channel names of the first sample (1 + number of channel names of them), and exactly one row
per sample is handed to `trajectory->add`, in buffer order; when no sample carries more
values than the first sample has channel names, the row of every sample that carries exactly
that many values is the sample's time (cast to `float`) followed by its channel values. -/
theorem clmc_export_rows_per_sample (s : TaskRecorderIO) (directory_name : String) (w : W)
    (hok : (writeRecordedDataToCLMCFile U s directory_name w).1 = .ok ()) :
    ∃ first rest file_name s1 w1 trajectory0 trajectory1,
      s.messages_ = first :: rest ∧
      writeRecordedDataToCLMCFile_file_name U s directory_name w = (.ok file_name, s1, w1) ∧
      clmc_variable_names s.messages_ = "ros_time" :: first.names ∧
      (clmc_variable_names s.messages_).length = 1 + first.names.length ∧
      U.trajectory_initialize (clmc_variable_names s.messages_)
          ((s.messages_.length : ℚ) / trajectory_duration s.messages_) true
          s.messages_.length = some trajectory0 ∧
      add_all_rows U (clmc_export_rows U s.messages_) trajectory0 = some trajectory1 ∧
      (U.trajectory_writeToCLMCFile trajectory1 file_name true w1).1 = true ∧
      (clmc_export_rows U s.messages_).length = s.messages_.length ∧
      ((∀ msg ∈ s.messages_, msg.data.length ≤ first.names.length) →
        ∀ (i : Nat) (hi : i < s.messages_.length),
          s.messages_[i].data.length = first.names.length →
          (clmc_export_rows U s.messages_)[i]?
            = some (U.to_float s.messages_[i].stamp :: s.messages_[i].data)) := by
  cases hstage : writeRecordedDataToCLMCFile_file_name U s directory_name w with
  | mk r rest1 =>
    obtain ⟨s1, w1⟩ := rest1
    cases r with
    | error e =>
      simp [writeRecordedDataToCLMCFile, hstage] at hok
    | ok file_name =>
      obtain ⟨-, hne, hmsgs⟩ := clmc_file_name_ok U s directory_name w file_name s1 w1 hstage
      obtain ⟨first, rest, hlist⟩ := List.exists_cons_of_ne_nil hne
      have hnames : clmc_variable_names s.messages_ = "ros_time" :: first.names := by
        simp [clmc_variable_names, hlist]
      by_cases hpos : trajectory_duration s.messages_ > 0
      · rw [writeRecordedDataToCLMCFile_of_duration_pos U s directory_name w file_name s1 w1
          hstage hpos] at hok
        unfold export_trajectory at hok
        rw [hmsgs] at hok
        change (match U.trajectory_initialize (clmc_variable_names s.messages_)
            ((s.messages_.length : ℚ) / trajectory_duration s.messages_) true
            s.messages_.length with
          | none => (Except.error Failure.trajectoryFailed, s1, w1)
          | some trajectory =>
            match add_rows U s.messages_
                (List.replicate (clmc_variable_names s.messages_).length 0) trajectory with
            | none => (Except.error Failure.trajectoryFailed, s1, w1)
            | some trajectory =>
              (if (U.trajectory_writeToCLMCFile trajectory file_name true w1).1 then Except.ok ()
                else Except.error Failure.trajectoryFailed, s1,
                (U.trajectory_writeToCLMCFile trajectory file_name true w1).2)).1
          = Except.ok () at hok
        cases hinit : U.trajectory_initialize (clmc_variable_names s.messages_)
            ((s.messages_.length : ℚ) / trajectory_duration s.messages_) true
            s.messages_.length with
        | none => simp [hinit] at hok
        | some trajectory0 =>
          rw [hinit] at hok
          simp only at hok
          rw [add_rows_eq] at hok
          cases hadd : add_all_rows U (clmc_rows U s.messages_
              (List.replicate (clmc_variable_names s.messages_).length 0)) trajectory0 with
          | none => simp [hadd] at hok
          | some trajectory1 =>
            rw [hadd] at hok
            simp only at hok
            have hwrite : (U.trajectory_writeToCLMCFile trajectory1 file_name true w1).1
                = true := by
              cases hc : (U.trajectory_writeToCLMCFile trajectory1 file_name true w1).1 with
              | true => rfl
              | false => simp [hc] at hok
            refine ⟨first, rest, file_name, s1, w1, trajectory0, trajectory1, hlist, rfl,
              hnames, by simp [hnames, Nat.add_comm], rfl, hadd, hwrite,
              length_clmc_rows U _ _, ?_⟩
            intro _ i hi hsize
            unfold clmc_export_rows
            rw [clmc_rows_getElem? U _ _ i hi]
            congr 1
            apply fill_row_full
            rw [length_buffer_after, List.length_replicate, hnames, List.length_cons, hsize]
            omega
      · have hnot : ¬ (trajectory_duration s1.messages_ > 0) := by rw [hmsgs]; exact hpos
        simp [writeRecordedDataToCLMCFile, hstage, hnot] at hok

/-- C15: in `writeRecordedDataToCLMCFile` the rows handed to `trajectory->add` come from
one row buffer, allocated with a zero per variable name and reused across samples.  For a
buffer whose first sample is `first` and in which no sample carries more values than
`first` has channel names: every row has width 1 + channel-name count of `first`, and for a
sample `i` with fewer values than channel names, each column `1 + j` beyond its value count
holds, in row `i`, the `j`-th value of the most recent earlier sample that has one, or 0 if
no earlier sample has (`last_supplied`), not a value of sample `i`. -/
theorem clmc_row_buffer_reused (messages_ : List DataSample) (first : DataSample)
    (rest : List DataSample) (hfirst : messages_ = first :: rest)
    (_hbound : ∀ msg ∈ messages_, msg.data.length ≤ first.names.length) :
    (∀ trajectory : T,
      add_rows U messages_ (List.replicate (clmc_variable_names messages_).length 0) trajectory
        = add_all_rows U (clmc_export_rows U messages_) trajectory) ∧
    (∀ row ∈ clmc_export_rows U messages_, row.length = 1 + first.names.length) ∧
    ∀ (i : Nat) (hi : i < messages_.length) (j : Nat),
      messages_[i].data.length ≤ j → j < first.names.length →
      messages_[i].data[j]? = none ∧
      ∃ row, (clmc_export_rows U messages_)[i]? = some row ∧
        row[1 + j]? = some (last_supplied (messages_.take i) j) := by
  have hnames : (clmc_variable_names messages_).length = 1 + first.names.length := by
    simp [clmc_variable_names, hfirst, Nat.add_comm]
  refine ⟨fun trajectory => add_rows_eq U _ _ trajectory, ?_, ?_⟩
  · intro row hrow
    obtain ⟨i, hi, rfl⟩ := List.getElem_of_mem hrow
    have hi1 : i < messages_.length := by
      rw [← length_clmc_rows U messages_
        (List.replicate (clmc_variable_names messages_).length 0)]
      exact hi
    have h := clmc_rows_getElem? U messages_
      (List.replicate (clmc_variable_names messages_).length 0) i hi1
    have h2 : (clmc_export_rows U messages_)[i]?
        = some ((clmc_export_rows U messages_)[i]) := List.getElem?_eq_getElem hi
    unfold clmc_export_rows at h2 ⊢
    rw [h] at h2
    rw [← Option.some.inj h2, length_fill_row, length_buffer_after, List.length_replicate,
      hnames]
  · intro i hi j hshort hj
    have hnone : messages_[i].data[j]? = none := List.getElem?_eq_none hshort
    refine ⟨hnone, fill_row U messages_[i] (buffer_after U (messages_.take i)
      (List.replicate (clmc_variable_names messages_).length 0)), ?_, ?_⟩
    · exact clmc_rows_getElem? U messages_ _ i hi
    · have hzero : (List.replicate (clmc_variable_names messages_).length (0 : ℚ))[1 + j]?
          = some 0 := by
        rw [List.getElem?_replicate, hnames, if_pos (by omega)]
      have hbuf := buffer_after_getElem?_succ U j (messages_.take i) _ 0 hzero
      rw [fill_row_getElem?_succ U messages_[i] _ j _ hbuf, hnone]
      rfl

end Recorder

theorem lookup_assoc_set_self {κ ν : Type} [DecidableEq κ] (k : κ) (v : ν) :
    ∀ l : List (κ × ν), assoc_get k (assoc_set k v l) = some v
  | [] => by simp [assoc_set, assoc_get]
  | (k1, v1) :: rest => by
    by_cases h : k1 = k
    · simp [assoc_set, h, assoc_get]
    · simp [assoc_set, h, assoc_get, lookup_assoc_set_self k v rest]

theorem counter_with_directory (w : World) (d path topic : String) :
    (w.with_directory d).counter path topic = w.counter path topic := by
  unfold World.with_directory
  split <;> rfl

theorem exampleCollaborators_counterContract :
    CounterContract exampleCollaborators World.counter where
  checkAndCreateDirectories d w path topic := counter_with_directory w d path topic
  checkForDirectory d w path topic := counter_with_directory w d path topic
  getTrialId _ _ _ _ _ _ := rfl
  writeToBagFileWithTimeStamps _ _ _ _ _ _ := rfl
  increment_succeeds path topic w _ := by
    show World.counter _ path topic = _
    unfold World.counter
    simp only [exampleCollaborators]
    rw [lookup_assoc_set_self]
    rfl
  increment_fails path topic w h := by
    simp [exampleCollaborators] at h

theorem writeRecordedData_counter_witness :
    writeRecordedData exampleCollaborators (exampleSession [⟨0, ["q"], [7]⟩]) "raw"
        exampleWorldRawTrials
      = (.ok (), { exampleSession [⟨0, ["q"], [7]⟩] with description_ := ⟨"grasp", 3⟩ },
          { exampleWorldRawTrials with
            counters := [(("/pkg/data/grasp/raw", "/joint_states"), 3)]
            bag_files := [("/pkg/data/grasp/raw/joint_states_trial_0.bag", []),
              ("/pkg/data/grasp/raw/joint_states_trial_1.bag", []),
              ("/pkg/data/grasp/raw/joint_states_trial_2.bag", [⟨0, ["q"], [7]⟩])] }) ∧
    World.counter exampleWorldRawTrials "/pkg/data/grasp/raw" "/joint_states" = 2 ∧
    World.counter
        (writeRecordedData exampleCollaborators (exampleSession [⟨0, ["q"], [7]⟩]) "raw"
          exampleWorldRawTrials).2.2 "/pkg/data/grasp/raw" "/joint_states"
      = World.counter exampleWorldRawTrials "/pkg/data/grasp/raw" "/joint_states" +
          (if (exampleCollaborators.incrementTrialCounterFile "/pkg/data/grasp/raw"
              "/joint_states"
              { exampleWorldRawTrials with
                bag_files := [("/pkg/data/grasp/raw/joint_states_trial_0.bag", []),
                  ("/pkg/data/grasp/raw/joint_states_trial_1.bag", []),
                  ("/pkg/data/grasp/raw/joint_states_trial_2.bag",
                    [⟨0, ["q"], [7]⟩])] }).1
            then 1 else 0) :=
  ⟨by decide, by decide,
    ((((writeRecordedData_counter exampleCollaborators World.counter
      exampleCollaborators_counterContract (exampleSession [⟨0, ["q"], [7]⟩]) rfl "raw"
      exampleWorldRawTrials "/pkg/data/grasp/raw" "/pkg/data/grasp/raw/" (by decide)
      (by decide) exampleWorldRawTrials (by decide)).2 exampleWorldRawTrials
      (Or.inr ⟨by decide, by decide⟩) 2 exampleWorldRawTrials).2 (by decide)
      { exampleWorldRawTrials with
        bag_files := [("/pkg/data/grasp/raw/joint_states_trial_0.bag", []),
          ("/pkg/data/grasp/raw/joint_states_trial_1.bag", []),
          ("/pkg/data/grasp/raw/joint_states_trial_2.bag", [⟨0, ["q"], [7]⟩])] }).2
      (by decide)).2.2⟩

theorem exampleCollaborators_completenessContract :
    CompletenessContract exampleCollaborators World.trial_file_present where
  complete_iff path trial topic w := by
    show ((List.range trial.toNat).all fun k => w.trial_file_present path topic k) = true ↔ _
    rw [List.all_eq_true]
    constructor
    · intro h i hi
      exact h i (List.mem_range.mpr (Int.lt_toNat.mpr hi))
    · intro h i hi
      exact h i (Int.lt_toNat.mp (List.mem_range.mp hi))

theorem createDirectories_completeness_witness :
    createDirectories_trial_id exampleCollaborators (exampleSession []) ""
        (exampleWorldAfterTwoTrials [("/pkg/data/grasp/joint_states_trial_0.bag", [])])
      = (.ok (), { exampleSession [] with description_ := ⟨"grasp", 2⟩ },
          exampleWorldAfterTwoTrials [("/pkg/data/grasp/joint_states_trial_0.bag", [])]) ∧
    World.trial_file_present
        (exampleWorldAfterTwoTrials [("/pkg/data/grasp/joint_states_trial_0.bag", [])])
        "/pkg/data/grasp" "/joint_states" 1 = false ∧
    createDirectories exampleCollaborators (exampleSession []) ""
        (exampleWorldAfterTwoTrials [("/pkg/data/grasp/joint_states_trial_0.bag", [])])
      = (.error .incomplete, { exampleSession [] with description_ := ⟨"grasp", 2⟩ },
          exampleWorldAfterTwoTrials [("/pkg/data/grasp/joint_states_trial_0.bag", [])]) ∧
    createDirectories exampleCollaborators (exampleSession []) ""
        (exampleWorldAfterTwoTrials [("/pkg/data/grasp/joint_states_trial_0.bag", []),
          ("/pkg/data/grasp/joint_states_trial_1.bag", [])])
      = (.ok (), { exampleSession [] with description_ := ⟨"grasp", 2⟩ },
          exampleWorldAfterTwoTrials [("/pkg/data/grasp/joint_states_trial_0.bag", []),
            ("/pkg/data/grasp/joint_states_trial_1.bag", [])]) :=
  ⟨by decide, by decide,
    (createDirectories_completeness exampleCollaborators World.trial_file_present
      exampleCollaborators_completenessContract (exampleSession []) ""
      (exampleWorldAfterTwoTrials [("/pkg/data/grasp/joint_states_trial_0.bag", [])])
      { exampleSession [] with description_ := ⟨"grasp", 2⟩ }
      (exampleWorldAfterTwoTrials [("/pkg/data/grasp/joint_states_trial_0.bag", [])])
      (by decide)).2.1 (by decide) (by decide),
    by decide⟩

/-- C13 (as stated, refuted): the buffer with the samples `(t = 0, values 1, 2)` and
`(t = 1, value 3)`, both with the channel names `a`, `b`, is accepted, and the second row of
the export is `1, 3, 2`, not the second sample's time followed by its channel values
`1, 3`: the last column still holds the value of the first sample. -/
theorem clmc_short_sample_row :
    (writeRecordedDataToCLMCFile exampleCollaborators
        (exampleSession [⟨0, ["a", "b"], [1, 2]⟩, ⟨1, ["a", "b"], [3]⟩]) "" exampleWorld).1
      = .ok () ∧
    (writeRecordedDataToCLMCFile exampleCollaborators
        (exampleSession [⟨0, ["a", "b"], [1, 2]⟩, ⟨1, ["a", "b"], [3]⟩]) ""
        exampleWorld).2.2.clmc_files.map (fun f => (f.1, f.2.variable_names, f.2.rows))
      = [("/pkg/data/grasp/d0", ["ros_time", "a", "b"], [[0, 1, 2], [1, 3, 2]])] ∧
    (clmc_export_rows exampleCollaborators
        [⟨0, ["a", "b"], [1, 2]⟩, ⟨1, ["a", "b"], [3]⟩])[1]? = some [1, 3, 2] ∧
    (clmc_export_rows exampleCollaborators
        [⟨0, ["a", "b"], [1, 2]⟩, ⟨1, ["a", "b"], [3]⟩])[1]?
      ≠ some (exampleCollaborators.to_float 1 :: [3]) := by
  have hrun := writeRecordedDataToCLMCFile_of_duration_pos exampleCollaborators
    (exampleSession [⟨0, ["a", "b"], [1, 2]⟩, ⟨1, ["a", "b"], [3]⟩]) "" exampleWorld
    "/pkg/data/grasp/d0" (exampleSession [⟨0, ["a", "b"], [1, 2]⟩, ⟨1, ["a", "b"], [3]⟩])
    (exampleWorld.with_directory "/pkg/data") (by decide)
    (by norm_num [trajectory_duration, stamp_at, exampleSession])
  rw [hrun]
  exact ⟨by decide, by decide, by decide, by decide⟩

theorem clmc_export_rows_per_sample_witness :
    (writeRecordedDataToCLMCFile exampleCollaborators
        (exampleSession [⟨5, ["a", "b"], [1, 2]⟩]) "" exampleWorld).1 = .ok () ∧
    (∃ first rest file_name s1 w1 trajectory0 trajectory1,
      (exampleSession [⟨5, ["a", "b"], [1, 2]⟩]).messages_ = first :: rest ∧
      writeRecordedDataToCLMCFile_file_name exampleCollaborators
        (exampleSession [⟨5, ["a", "b"], [1, 2]⟩]) "" exampleWorld
        = (.ok file_name, s1, w1) ∧
      clmc_variable_names (exampleSession [⟨5, ["a", "b"], [1, 2]⟩]).messages_
        = "ros_time" :: first.names ∧
      (clmc_variable_names (exampleSession [⟨5, ["a", "b"], [1, 2]⟩]).messages_).length
        = 1 + first.names.length ∧
      exampleCollaborators.trajectory_initialize
          (clmc_variable_names (exampleSession [⟨5, ["a", "b"], [1, 2]⟩]).messages_)
          (((exampleSession [⟨5, ["a", "b"], [1, 2]⟩]).messages_.length : ℚ)
            / trajectory_duration (exampleSession [⟨5, ["a", "b"], [1, 2]⟩]).messages_) true
          (exampleSession [⟨5, ["a", "b"], [1, 2]⟩]).messages_.length = some trajectory0 ∧
      add_all_rows exampleCollaborators
          (clmc_export_rows exampleCollaborators
            (exampleSession [⟨5, ["a", "b"], [1, 2]⟩]).messages_) trajectory0
        = some trajectory1 ∧
      (exampleCollaborators.trajectory_writeToCLMCFile trajectory1 file_name true w1).1
        = true ∧
      (clmc_export_rows exampleCollaborators
          (exampleSession [⟨5, ["a", "b"], [1, 2]⟩]).messages_).length
        = (exampleSession [⟨5, ["a", "b"], [1, 2]⟩]).messages_.length ∧
      ((∀ msg ∈ (exampleSession [⟨5, ["a", "b"], [1, 2]⟩]).messages_,
          msg.data.length ≤ first.names.length) →
        ∀ (i : Nat) (hi : i < (exampleSession [⟨5, ["a", "b"], [1, 2]⟩]).messages_.length),
          (exampleSession [⟨5, ["a", "b"], [1, 2]⟩]).messages_[i].data.length
            = first.names.length →
          (clmc_export_rows exampleCollaborators
              (exampleSession [⟨5, ["a", "b"], [1, 2]⟩]).messages_)[i]?
            = some (exampleCollaborators.to_float
                (exampleSession [⟨5, ["a", "b"], [1, 2]⟩]).messages_[i].stamp
              :: (exampleSession [⟨5, ["a", "b"], [1, 2]⟩]).messages_[i].data))) ∧
    clmc_export_rows exampleCollaborators [⟨5, ["a", "b"], [1, 2]⟩] = [[5, 1, 2]] :=
  have hok : (writeRecordedDataToCLMCFile exampleCollaborators
      (exampleSession [⟨5, ["a", "b"], [1, 2]⟩]) "" exampleWorld).1 = .ok () := by
    rw [writeRecordedDataToCLMCFile_of_duration_pos exampleCollaborators
      (exampleSession [⟨5, ["a", "b"], [1, 2]⟩]) "" exampleWorld "/pkg/data/grasp/d0"
      (exampleSession [⟨5, ["a", "b"], [1, 2]⟩]) (exampleWorld.with_directory "/pkg/data")
      (by decide) (by norm_num [trajectory_duration, exampleSession])]
    decide
  ⟨hok, clmc_export_rows_per_sample exampleCollaborators
    (exampleSession [⟨5, ["a", "b"], [1, 2]⟩]) "" exampleWorld hok, by decide⟩

theorem clmc_row_buffer_reused_witness :
    (∀ msg ∈ exampleRaggedSamples, msg.data.length ≤ (["a", "b"] : List String).length) ∧
    clmc_export_rows exampleCollaborators exampleRaggedSamples
      = [[0, 1, 2], [1, 3, 2], [2, 3, 2]] ∧
    last_supplied (exampleRaggedSamples.take 2) 0 = 3 ∧
    last_supplied (exampleRaggedSamples.take 2) 1 = 2 ∧
    (∃ row, (clmc_export_rows exampleCollaborators exampleRaggedSamples)[2]? = some row ∧
      row[1 + 0]? = some (last_supplied (exampleRaggedSamples.take 2) 0)) :=
  ⟨by decide, by decide, by decide, by decide,
    ((clmc_row_buffer_reused exampleCollaborators exampleRaggedSamples
      ⟨0, ["a", "b"], [1, 2]⟩ [⟨1, ["a", "b"], [3]⟩, ⟨2, ["a", "b"], []⟩] rfl
      (by decide)).2.2 2 (by decide) 0 (by decide) (by decide)).2⟩

end task_recorder2_io

